import Mathlib

/-!
Shallow embedding of the Agar.io clone game server
(`src/game/gameServer.ts`, class `GameServer`) and verification of the
specification's claims about it.

Modelling conventions:
* JS numbers are modelled as rationals (`ℚ`); scores, which are only ever
  incremented by `Math.round(...)`, are modelled as integers (`ℤ`).
* `Map<string, T>` is modelled as an insertion-ordered association list
  `List (String × T)`; `Map.set` replaces in place or appends, `Map.delete`
  removes the (unique) entry, `Map.get` is `mapLookup`.
* `Set<string>` is modelled as a duplicate-free `List String` in insertion
  order (`setInsert` appends when absent, `setDelete` filters).
* `Math.sqrt` is irrational-valued, so state transformers take an oracle
  `qsqrt : ℚ → ℚ` standing for `Math.sqrt`; theorems constrain it at the
  arguments actually used via `SqrtOk qsqrt s` (`0 ≤ qsqrt s ∧ (qsqrt s)^2 = s`),
  which pins it to the unique nonnegative square root.
* `Math.random()` results (spawn positions, colors, fresh identifiers, split
  angles) are passed in as explicit oracle arguments.
* Wall-clock fields (`lastMoveTime`, `lastUpdate`, `lastTargetChange`) and
  socket emissions (`init`, `playerDeath`, `gameUpdate`) carry no game state
  consulted by any verified operation and are omitted from the record.
-/

namespace Agar

/-- Association-list lookup: the model of `Map.prototype.get`. -/
def mapLookup {α : Type} (m : List (String × α)) (k : String) : Option α :=
  match m with
  | [] => none
  | (k', v) :: rest => if k' = k then some v else mapLookup rest k

/-- Association-list update: the model of `Map.prototype.set` (replace in
place when the key is present, append otherwise). -/
def mapSet {α : Type} (m : List (String × α)) (k : String) (v : α) :
    List (String × α) :=
  match m with
  | [] => [(k, v)]
  | (k', v') :: rest => if k' = k then (k, v) :: rest else (k', v') :: mapSet rest k v

/-- Association-list removal: the model of `Map.prototype.delete` (removes
the first — in a well-formed map the only — entry with the key). -/
def mapDelete {α : Type} (m : List (String × α)) (k : String) :
    List (String × α) :=
  match m with
  | [] => []
  | (k', v) :: rest => if k' = k then rest else (k', v) :: mapDelete rest k

/-- Set insertion: the model of `Set.prototype.add` (appends when absent). -/
def setInsert (s : List String) (k : String) : List String :=
  if k ∈ s then s else s ++ [k]

/-- Set removal: the model of `Set.prototype.delete`. -/
def setDelete (s : List String) (k : String) : List String :=
  s.filter (fun x => x ≠ k)

/-- Bot behavior tag, from the `behavior: "hunter" | "prey" | "neutral"` field. -/
inductive Behavior where
  | hunter
  | prey
  | neutral
  deriving DecidableEq

/-- The `Player` interface of `gameServer.ts` (a top-level cell, a split
fragment, or a bot).  Timestamp fields are omitted (see module comment). -/
structure Player where
  id : String
  x : ℚ
  y : ℚ
  radius : ℚ
  color : String
  name : String
  mass : ℚ
  isBot : Bool
  behavior : Behavior
  aggression : ℚ
  parentId : Option String
  splitParts : List String
  score : ℤ
  isControlled : Bool
  quadrant : Option String
  deriving DecidableEq

/-- The `Food` interface of `gameServer.ts`. -/
structure Food where
  id : String
  x : ℚ
  y : ℚ
  radius : ℚ
  color : String
  quadrant : String
  deriving DecidableEq

/-- The `Quadrant` interface of `gameServer.ts` (a spatial-partitioning bucket). -/
structure Quadrant where
  x : ℚ
  y : ℚ
  width : ℚ
  height : ℚ
  players : List String
  food : List String
  deriving DecidableEq

/-- The mutable fields of the `GameServer` class that the game logic reads
and writes: the entity maps and the spatial index. -/
structure GameState where
  players : List (String × Player)
  food : List (String × Food)
  quadrants : List (String × Quadrant)
  deriving DecidableEq

/-- WORLD_WIDTH = 5000. -/
def WORLD_WIDTH : ℚ := 5000
/-- WORLD_HEIGHT = 5000. -/
def WORLD_HEIGHT : ℚ := 5000
/-- FOOD_COUNT = 800. -/
def FOOD_COUNT : ℕ := 800
/-- BASE_RADIUS = 20. -/
def BASE_RADIUS : ℚ := 20
/-- BASE_MASS = 100. -/
def BASE_MASS : ℚ := 100
/-- PLAYER_SPEED = 15. -/
def PLAYER_SPEED : ℚ := 15
/-- MIN_SPLIT_MASS = 50. -/
def MIN_SPLIT_MASS : ℚ := 50
/-- QUADRANT_SIZE = 500. -/
def QUADRANT_SIZE : ℚ := 500

/-- Characterisation of `Math.sqrt` at the argument `s`: the oracle value is
the unique nonnegative number squaring to `s`. -/
def SqrtOk (f : ℚ → ℚ) (s : ℚ) : Prop := 0 ≤ f s ∧ (f s) ^ 2 = s

/-- Squared Euclidean distance, the radicand of the `distance` helper. -/
def distSq (x1 y1 x2 y2 : ℚ) : ℚ := (x2 - x1) ^ 2 + (y2 - y1) ^ 2

/-- The `distance` helper: `Math.sqrt((x2-x1)**2 + (y2-y1)**2)`, with the
square root taken by the oracle. -/
def distance (qsqrt : ℚ → ℚ) (x1 y1 x2 y2 : ℚ) : ℚ :=
  qsqrt (distSq x1 y1 x2 y2)

/-- The `massToRadius` helper: `Math.sqrt(mass) * 1.5`. -/
def massToRadius (qsqrt : ℚ → ℚ) (mass : ℚ) : ℚ :=
  qsqrt mass * (3 / 2)

/-- JavaScript's `Math.round`: round half towards positive infinity. -/
def mathRound (q : ℚ) : ℤ := Int.floor (q + 1 / 2)

/-- The `getQuadrantId` helper: `floor(x / QUADRANT_SIZE) + "_" + floor(y / QUADRANT_SIZE)`. -/
def getQuadrantId (x y : ℚ) : String :=
  toString (Int.floor (x / QUADRANT_SIZE)) ++ "_" ++ toString (Int.floor (y / QUADRANT_SIZE))

/-- Rewrites the entry of one player in the world map (the model of mutating
a `Player` object held by the map). -/
def setPlayer (st : GameState) (pid : String) (p : Player) : GameState :=
  { st with players := mapSet st.players pid p }

/-- The mutation pattern `quadrants.get(qid)?.players.delete(playerId)`. -/
def quadrantRemovePlayer (st : GameState) (qid playerId : String) : GameState :=
  match mapLookup st.quadrants qid with
  | some quadrant =>
    let quadrant1 := { quadrant with players := setDelete quadrant.players playerId }
    { st with quadrants := mapSet st.quadrants qid quadrant1 }
  | none => st

/-- The mutation pattern `quadrants.get(qid)?.players.add(playerId)`. -/
def quadrantAddPlayer (st : GameState) (qid playerId : String) : GameState :=
  match mapLookup st.quadrants qid with
  | some quadrant =>
    let quadrant1 := { quadrant with players := setInsert quadrant.players playerId }
    { st with quadrants := mapSet st.quadrants qid quadrant1 }
  | none => st

/-- The mutation pattern `quadrants.get(qid)?.food.delete(foodId)`. -/
def quadrantRemoveFood (st : GameState) (qid foodId : String) : GameState :=
  match mapLookup st.quadrants qid with
  | some quadrant =>
    let quadrant1 := { quadrant with food := setDelete quadrant.food foodId }
    { st with quadrants := mapSet st.quadrants qid quadrant1 }
  | none => st

/-- The mutation pattern `quadrants.get(qid)?.food.add(foodId)`. -/
def quadrantAddFood (st : GameState) (qid foodId : String) : GameState :=
  match mapLookup st.quadrants qid with
  | some quadrant =>
    let quadrant1 := { quadrant with food := setInsert quadrant.food foodId }
    { st with quadrants := mapSet st.quadrants qid quadrant1 }
  | none => st

/-- The `updatePlayerQuadrant` method: remove the id from the old bucket when
the bucket changed, add it to the new bucket, cache the bucket id on the player. -/
def updatePlayerQuadrant (st : GameState) (playerId : String)
    (old : Option (ℚ × ℚ)) : GameState :=
  match mapLookup st.players playerId with
  | none => st
  | some player =>
    let newQuadrantId := getQuadrantId player.x player.y
    let st1 :=
      match old with
      | some oldPos =>
        let oldQuadrantId := getQuadrantId oldPos.1 oldPos.2
        if oldQuadrantId ≠ newQuadrantId then quadrantRemovePlayer st oldQuadrantId playerId
        else st
      | none => st
    let st2 := quadrantAddPlayer st1 newQuadrantId playerId
    setPlayer st2 playerId { player with quadrant := some newQuadrantId }

/-- The `updateFoodQuadrant` method: cache the bucket id on the food item and
add the id to that bucket's food set. -/
def updateFoodQuadrant (st : GameState) (foodId : String) : GameState :=
  match mapLookup st.food foodId with
  | none => st
  | some food =>
    let quadrantId := getQuadrantId food.x food.y
    let st1 := { st with food := mapSet st.food foodId { food with quadrant := quadrantId } }
    quadrantAddFood st1 quadrantId foodId

/-- Oracle record for one `spawnFood` call: the randomly generated id,
position, radius and color. -/
structure FoodSpec where
  fid : String
  fx : ℚ
  fy : ℚ
  fr : ℚ
  fc : String
  deriving DecidableEq

/-- The `spawnFood` method, with the random draws supplied as a `FoodSpec`. -/
def spawnFood (fs : FoodSpec) (st : GameState) : GameState :=
  let food : Food := { id := fs.fid, x := fs.fx, y := fs.fy, radius := fs.fr,
                       color := fs.fc, quadrant := "" }
  let st1 := { st with food := mapSet st.food fs.fid food }
  updateFoodQuadrant st1 fs.fid

/-- The `join` socket handler: delete any previous cell registered under this
connection id, create a fresh top-level cell at a random position with base
mass, register it under the same id and index it.  `r1`, `r2` are the two
`Math.random()` draws and `color` the `getRandomColor()` result. -/
def handleJoin (st : GameState) (socketId : String) (name : String)
    (r1 r2 : ℚ) (color : String) : GameState :=
  let st0 :=
    if (mapLookup st.players socketId).isSome then
      { st with players := mapDelete st.players socketId }
    else st
  let player : Player :=
    { id := socketId
      x := r1 * WORLD_WIDTH
      y := r2 * WORLD_HEIGHT
      radius := BASE_RADIUS
      mass := BASE_MASS
      color := color
      name := (if name = "" then "Anonymous" else name).take 15
      isBot := false
      behavior := Behavior.neutral
      aggression := 1 / 2
      parentId := none
      splitParts := []
      score := 0
      isControlled := true
      quadrant := none }
  let st1 := { st0 with players := mapSet st0.players socketId player }
  updatePlayerQuadrant st1 socketId none

/-- The `disconnect` socket handler: delete the connection's top-level cell
and every id in its fragment list from the world map, then remove the
top-level id from its cached quadrant's player set.  (The fragments' ids are
not removed from any quadrant set.) -/
def handleDisconnect (st : GameState) (socketId : String) : GameState :=
  match mapLookup st.players socketId with
  | none => st
  | some player =>
    if player.isBot then st
    else
      let st1 := player.splitParts.foldl
        (fun s partId => { s with players := mapDelete s.players partId }) st
      let st2 := { st1 with players := mapDelete st1.players socketId }
      match player.quadrant with
      | some qid => quadrantRemovePlayer st2 qid socketId
      | none => st2

/-- The `handleSplit` method: no-op unless the cell exists and has mass at
least `MIN_SPLIT_MASS`; otherwise halve its mass, recompute its radius, and
create a fragment offset by twice the post-split radius at a random angle,
registering it in the map, the owner's fragment list and the spatial index.
`newPartId` is the generated fragment id and `cosA`, `sinA` the cosine and
sine of the random angle. -/
def handleSplit (qsqrt : ℚ → ℚ) (st : GameState) (playerId : String)
    (newPartId : String) (cosA sinA : ℚ) : GameState :=
  match mapLookup st.players playerId with
  | none => st
  | some player =>
    if player.mass < MIN_SPLIT_MASS then st
    else
      let newMass := player.mass / 2
      let newRadius := massToRadius qsqrt newMass
      let player1 := { player with mass := newMass, radius := newRadius }
      let splitDistance := player1.radius * 2
      let newPart : Player :=
        { id := newPartId
          x := player1.x + cosA * splitDistance
          y := player1.y + sinA * splitDistance
          radius := newRadius
          mass := newMass
          color := player.color
          name := player.name
          isBot := false
          behavior := Behavior.neutral
          aggression := 1 / 2
          parentId := some playerId
          splitParts := []
          score := 0
          isControlled := true
          quadrant := none }
      let player2 := { player1 with splitParts := player1.splitParts ++ [newPartId] }
      let st1 := setPlayer st playerId player2
      let st2 := { st1 with players := mapSet st1.players newPartId newPart }
      updatePlayerQuadrant st2 newPartId none

/-- The `handlePlayerEaten` method: the eater gains `0.8 × eaten.mass`, its
radius is recomputed from its new mass and its score grows by the rounded
gain; the eaten cell — whatever its kind — is reset in place to a random
position with base mass, base radius and zero score, and re-indexed.
`rx`, `ry` are the two `Math.random()` draws for the respawn position.
The `playerDeath` emission carries no game state and is omitted. -/
def handlePlayerEaten (qsqrt : ℚ → ℚ) (rx ry : ℚ) (st : GameState)
    (eatenId eaterId : String) : GameState :=
  match mapLookup st.players eatenId, mapLookup st.players eaterId with
  | some eaten, some eater =>
    let massGain := eaten.mass * (4 / 5)
    let eater1 := { eater with mass := eater.mass + massGain }
    let eater2 := { eater1 with radius := massToRadius qsqrt eater1.mass,
                                score := eater1.score + mathRound massGain }
    let eaten1 := { eaten with x := rx * WORLD_WIDTH, y := ry * WORLD_HEIGHT,
                               mass := BASE_MASS, radius := BASE_RADIUS, score := 0 }
    let st1 := setPlayer st eaterId eater2
    let st2 := setPlayer st1 eatenId eaten1
    updatePlayerQuadrant st2 eatenId none
  | _, _ => st

/-- The same-lineage test at the top of `checkPlayerCollision`: sibling
fragments, parent and fragment (in either orientation), or fragment and
parent. -/
def samePlayerPair (player otherPlayer : Player) : Bool :=
  (player.parentId.isSome && otherPlayer.parentId.isSome
    && player.parentId == otherPlayer.parentId)
  || player.parentId == some otherPlayer.id
  || otherPlayer.parentId == some player.id
  || some player.id == otherPlayer.parentId

/-- Oracle record for one `handlePlayerEaten` call: the two `Math.random()`
draws for the eaten cell's respawn position. -/
structure EatSpec where
  rx : ℚ
  ry : ℚ
  deriving DecidableEq

/-- The `checkPlayerCollision` method, lifted to the state: skip same-lineage
pairs; if the cells overlap (`distance < radiusA + radiusB`), the one whose
mass strictly exceeds 1.15 times the other's eats it.  Eat events draw one
`EatSpec` from the oracle list; `none` signals that the supplied oracle list
was too short. -/
def checkPlayerCollision (qsqrt : ℚ → ℚ) (st : GameState)
    (playerId otherPlayerId : String) (eats : List EatSpec) :
    Option (GameState × List EatSpec) :=
  match mapLookup st.players playerId, mapLookup st.players otherPlayerId with
  | some player, some otherPlayer =>
    if samePlayerPair player otherPlayer then some (st, eats)
    else if distance qsqrt player.x player.y otherPlayer.x otherPlayer.y
        < player.radius + otherPlayer.radius then
      if player.mass > otherPlayer.mass * (23 / 20) then
        match eats with
        | [] => none
        | e :: rest =>
          some (handlePlayerEaten qsqrt e.rx e.ry st otherPlayerId playerId, rest)
      else if otherPlayer.mass > player.mass * (23 / 20) then
        match eats with
        | [] => none
        | e :: rest =>
          some (handlePlayerEaten qsqrt e.rx e.ry st playerId otherPlayerId, rest)
      else some (st, eats)
    else some (st, eats)
  | _, _ => some (st, eats)

/-- Loop body of `checkMerge`, iterating the snapshot of map entries: a
fragment within `parent.radius * 2` of its (current) parent is absorbed —
the parent gains its mass and score, recomputes its radius, drops the id
from its fragment list — and the fragment is deleted from the map and from
its cached quadrant's player set. -/
def mergeLoop (qsqrt : ℚ → ℚ) (entries : List (String × Player))
    (st : GameState) : GameState :=
  match entries with
  | [] => st
  | (playerId, player) :: rest =>
    match player.parentId with
    | none => mergeLoop qsqrt rest st
    | some parentId =>
      match mapLookup st.players parentId with
      | none => mergeLoop qsqrt rest st
      | some parent =>
        if distance qsqrt player.x player.y parent.x parent.y < parent.radius * 2 then
          let parent1 := { parent with mass := parent.mass + player.mass }
          let parent2 := { parent1 with radius := massToRadius qsqrt parent1.mass,
                                        score := parent1.score + player.score,
                                        splitParts := parent1.splitParts.filter (fun id => id ≠ playerId) }
          let st1 := setPlayer st parentId parent2
          let st2 := { st1 with players := mapDelete st1.players playerId }
          let st3 :=
            match player.quadrant with
            | some qid => quadrantRemovePlayer st2 qid playerId
            | none => st2
          mergeLoop qsqrt rest st3
        else mergeLoop qsqrt rest st

/-- The `checkMerge` method: run `mergeLoop` over the snapshot
`Array.from(this.players.entries())`. -/
def checkMerge (qsqrt : ℚ → ℚ) (st : GameState) : GameState :=
  mergeLoop qsqrt st.players st

/-- The `movePlayerTowardsTarget` method: beyond the 5-unit dead zone the
cell advances by `PLAYER_SPEED` along the unit vector to the target, is
clamped to `[radius, worldDimension − radius]` on both axes, and is
re-indexed when it moved more than one unit on either axis. -/
def movePlayerTowardsTarget (qsqrt : ℚ → ℚ) (st : GameState)
    (playerId : String) (targetX targetY : ℚ) : GameState :=
  match mapLookup st.players playerId with
  | none => st
  | some player =>
    let oldX := player.x
    let oldY := player.y
    let dx := targetX - player.x
    let dy := targetY - player.y
    let dist := distance qsqrt player.x player.y targetX targetY
    if dist > 5 then
      let speed := PLAYER_SPEED
      let moveX := dx / dist * speed
      let moveY := dy / dist * speed
      let newX := max player.radius (min (WORLD_WIDTH - player.radius) (player.x + moveX))
      let newY := max player.radius (min (WORLD_HEIGHT - player.radius) (player.y + moveY))
      let player1 := { player with x := newX, y := newY }
      let st1 := setPlayer st playerId player1
      if 1 < |oldX - player1.x| ∨ 1 < |oldY - player1.y| then
        updatePlayerQuadrant st1 playerId (some (oldX, oldY))
      else st1
    else st

/-- The `getAllPlayerParts` method: the main cell, the live cells named in
its fragment list, and every map entry whose `parentId` equals the main id
(the source pushes such entries even when already listed). -/
def getAllPlayerParts (st : GameState) (playerId : String) : List Player :=
  match mapLookup st.players playerId with
  | none => []
  | some mainPlayer =>
    let fromList := mainPlayer.splitParts.filterMap (fun partId => mapLookup st.players partId)
    let byParent := (st.players.filter (fun e => e.2.parentId == some playerId)).map (fun e => e.2)
    mainPlayer :: fromList ++ byParent

/-- The sorted pair key used by `checkCollisions` to deduplicate unordered
pairs: `[a, b].sort().join("_")`. -/
def pairKey (a b : String) : String :=
  if a ≤ b then a ++ "_" ++ b else b ++ "_" ++ a

/-- The food set of one quadrant, as currently stored in the state. -/
def quadrantFoodSet (st : GameState) (qid : String) : List String :=
  match mapLookup st.quadrants qid with
  | some quadrant => quadrant.food
  | none => []

/-- The player-food part of `checkCollisions` for one player of one quadrant.
The JS `for (const foodId of quadrant.food)` iterates the live `Set`:
deleting the current id is harmless, and a replacement food spawned into the
same quadrant is appended to the set and visited later in the same loop —
`pending` models the ids the iterator has yet to visit.  On an overlap
(`distance < player.radius`) the food is deleted from the map and the
quadrant set, the player (threaded through, since the source mutates the
object in place) gains `foodItem.radius * 2` mass, recomputes its radius and
rounds the gain into its score, and one `FoodSpec` is drawn from the spawn
oracle for the replacement.  `none` signals an exhausted oracle list.
`fuel` is purely a structural-termination device: the caller passes
`pending.length + spawns.length`, which the loop provably never exhausts
(each iteration consumes a pending id, and an iteration that appends one
also consumes a spawn), so the fuel-out branch is unreachable. -/
def playerFoodLoop (qsqrt : ℚ → ℚ) (qid : String) (player : Player)
    (pending : List String) (st : GameState) (spawns : List FoodSpec)
    (fuel : ℕ) : Option (Player × GameState × List FoodSpec) :=
  match pending with
  | [] => some (player, st, spawns)
  | foodId :: rest =>
    match fuel with
    | 0 => none
    | fuel + 1 =>
      match mapLookup st.food foodId with
      | none => playerFoodLoop qsqrt qid player rest st spawns fuel
      | some foodItem =>
        if distance qsqrt player.x player.y foodItem.x foodItem.y < player.radius then
          match spawns with
          | [] => none
          | fs :: spawnsRest =>
            let st1 := { st with food := mapDelete st.food foodId }
            let st2 := quadrantRemoveFood st1 qid foodId
            let massGain := foodItem.radius * 2
            let player1 := { player with mass := player.mass + massGain }
            let player2 := { player1 with radius := massToRadius qsqrt player1.mass,
                                          score := player1.score + mathRound massGain }
            let st3 := spawnFood fs st2
            let pending1 :=
              if getQuadrantId fs.fx fs.fy = qid ∧ fs.fid ∉ quadrantFoodSet st2 qid then
                rest ++ [fs.fid]
              else rest
            playerFoodLoop qsqrt qid player2 pending1 st3 spawnsRest fuel
        else playerFoodLoop qsqrt qid player rest st spawns fuel

/-- The player-player part of `checkCollisions` for one player of one
quadrant: walk the snapshot of the quadrant's player ids, skip the player
itself and pairs already recorded in the processed-pair set, and run
`checkPlayerCollision` on each remaining live pair. -/
def playerPairLoop (qsqrt : ℚ → ℚ) (st : GameState) (playerId : String)
    (others : List String) (processed : List String) (eats : List EatSpec) :
    Option (GameState × List String × List EatSpec) :=
  match others with
  | [] => some (st, processed, eats)
  | otherPlayerId :: rest =>
    if playerId = otherPlayerId then
      playerPairLoop qsqrt st playerId rest processed eats
    else
      let key := pairKey playerId otherPlayerId
      if key ∈ processed then playerPairLoop qsqrt st playerId rest processed eats
      else
        let processed1 := processed ++ [key]
        match mapLookup st.players otherPlayerId with
        | none => playerPairLoop qsqrt st playerId rest processed1 eats
        | some _ =>
          match checkPlayerCollision qsqrt st playerId otherPlayerId eats with
          | none => none
          | some (st1, eats1) => playerPairLoop qsqrt st1 playerId rest processed1 eats1

/-- The per-quadrant body of `checkCollisions`: for each id of the snapshot
`playerIds` that is still live, run the food loop over the quadrant's
current food set (writing the mutated player back, as the source mutates it
in place) and then the pair loop against the same snapshot. -/
def quadrantPlayersLoop (qsqrt : ℚ → ℚ) (qid : String) (playerIds : List String)
    (pids : List String) (st : GameState) (spawns : List FoodSpec)
    (processed : List String) (eats : List EatSpec) :
    Option (GameState × List FoodSpec × List String × List EatSpec) :=
  match pids with
  | [] => some (st, spawns, processed, eats)
  | pid :: rest =>
    match mapLookup st.players pid with
    | none => quadrantPlayersLoop qsqrt qid playerIds rest st spawns processed eats
    | some player =>
      match playerFoodLoop qsqrt qid player (quadrantFoodSet st qid) st spawns
          ((quadrantFoodSet st qid).length + spawns.length) with
      | none => none
      | some (player1, st1, spawns1) =>
        let st2 := setPlayer st1 pid player1
        match playerPairLoop qsqrt st2 pid playerIds processed eats with
        | none => none
        | some (st3, processed1, eats1) =>
          quadrantPlayersLoop qsqrt qid playerIds rest st3 spawns1 processed1 eats1

/-- The outer quadrant loop of `checkCollisions`, over the (fixed) key list
of the quadrant map, re-reading each quadrant's current player set as its
snapshot when its turn comes. -/
def quadrantsLoop (qsqrt : ℚ → ℚ) (qids : List String) (st : GameState)
    (spawns : List FoodSpec) (processed : List String) (eats : List EatSpec) :
    Option (GameState × List FoodSpec × List String × List EatSpec) :=
  match qids with
  | [] => some (st, spawns, processed, eats)
  | qid :: rest =>
    match mapLookup st.quadrants qid with
    | none => quadrantsLoop qsqrt rest st spawns processed eats
    | some quadrant =>
      match quadrantPlayersLoop qsqrt qid quadrant.players quadrant.players st spawns processed eats with
      | none => none
      | some (st1, spawns1, processed1, eats1) =>
        quadrantsLoop qsqrt rest st1 spawns1 processed1 eats1

/-- The `checkCollisions` method: fresh processed-pair set, then the quadrant
loop over all quadrant keys, resolving player-food and player-player
collisions.  Returns the new state and the unconsumed oracle suffixes. -/
def checkCollisions (qsqrt : ℚ → ℚ) (st : GameState) (spawns : List FoodSpec)
    (eats : List EatSpec) : Option (GameState × List FoodSpec × List EatSpec) :=
  match quadrantsLoop qsqrt (st.quadrants.map (fun e => e.1)) st spawns [] eats with
  | none => none
  | some (st1, spawns1, _, eats1) => some (st1, spawns1, eats1)

/-- The player identifiers a collision pass can actually act on for one
quadrant: the quadrant's stored id set filtered through the world map —
`checkCollisions` looks every id up and skips it when the lookup fails
(`if (!player) continue`), so ids without a map entry are never returned. -/
def liveQuadrantIds (st : GameState) (qid : String) : List String :=
  (match mapLookup st.quadrants qid with
   | some quadrant => quadrant.players
   | none => []).filter (fun pid => (mapLookup st.players pid).isSome)

/-! Definitions below embed the bot controller of the bot-enabled build of
`gameServer.ts` (the third concatenated revision, lines 1178–1711): its
`updateBotBehavior` and `findBestTarget`.  The candidate lists stand for the
results of `getNearbyPlayers(bot, visionRange)` and
`getNearbyFood(bot, 300)` — the spatial-grid queries that return the
entities within the respective range, which the caller passes in. -/

/-- The `updateBotBehavior` method of the bot build: mass above 100 makes the
bot a hunter and raises its aggression by 0.05 (capped at 1); mass below 30
makes it prey. -/
def updateBotBehavior (bot : Player) : Player :=
  if bot.mass > 100 then
    { bot with behavior := Behavior.hunter, aggression := min 1 (bot.aggression + 1 / 20) }
  else if bot.mass < 30 then { bot with behavior := Behavior.prey }
  else bot

/-- A candidate target of `findBestTarget`: position and priority score. -/
structure Target where
  x : ℚ
  y : ℚ
  priority : ℚ
  deriving DecidableEq

/-- The player-scanning loop of `findBestTarget`: a candidate at most 0.8
times the bot's mass scores `100 − dist/6 + (0.8 − massRatio)·50`, plus 50
for a hunter and minus 30 for a bot candidate; a candidate more than 1.2
times the bot's mass scores 5; anything else scores 0.  The best target is
replaced when the score beats the running best and exceeds 40. -/
def scanPlayers (qsqrt : ℚ → ℚ) (bot : Player) (candidates : List Player)
    (best : Option Target) (currentPriority : ℚ) : Option Target × ℚ :=
  match candidates with
  | [] => (best, currentPriority)
  | player :: rest =>
    let dist := distance qsqrt bot.x bot.y player.x player.y
    let massRatio := player.mass / bot.mass
    let priority : ℚ :=
      if massRatio < 4 / 5 then
        let p1 := 100 - dist / 6 + (4 / 5 - massRatio) * 50
        let p2 := if bot.behavior = Behavior.hunter then p1 + 50 else p1
        if player.isBot then p2 - 30 else p2
      else if massRatio > 6 / 5 then 5
      else 0
    if priority > currentPriority ∧ priority > 40 then
      scanPlayers qsqrt bot rest (some { x := player.x, y := player.y, priority := priority }) priority
    else scanPlayers qsqrt bot rest best currentPriority

/-- The food-scanning loop of `findBestTarget`: each food scores
`60 − dist/8 + radius` and replaces the best target when it beats the
running best (no 40 threshold here, as in the source). -/
def scanFood (qsqrt : ℚ → ℚ) (bot : Player) (candidates : List Food)
    (best : Option Target) (currentPriority : ℚ) : Option Target × ℚ :=
  match candidates with
  | [] => (best, currentPriority)
  | food :: rest =>
    let dist := distance qsqrt bot.x bot.y food.x food.y
    let priority := 60 - dist / 8 + food.radius
    if priority > currentPriority then
      scanFood qsqrt bot rest (some { x := food.x, y := food.y, priority := priority }) priority
    else scanFood qsqrt bot rest best currentPriority

/-- The `findBestTarget` method of the bot build: scan nearby players first,
then — only when no target was found or its priority is below 70 — nearby
food, and return the best target found (or none). -/
def findBestTarget (qsqrt : ℚ → ℚ) (bot : Player) (nearbyPlayers : List Player)
    (nearbyFood : List Food) : Option Target :=
  let afterPlayers := scanPlayers qsqrt bot nearbyPlayers none 0
  let afterFood :=
    if afterPlayers.1.isNone ∨ afterPlayers.2 < 70 then
      scanFood qsqrt bot nearbyFood afterPlayers.1 afterPlayers.2
    else afterPlayers
  afterFood.1

/-! Shared lemmas about the map and set models. -/

theorem mapLookup_mapSet_self {α : Type} (m : List (String × α)) (k : String) (v : α) :
    mapLookup (mapSet m k v) k = some v := by
  induction m with
  | nil => simp [mapSet, mapLookup]
  | cons e rest ih =>
    obtain ⟨a, b⟩ := e
    by_cases he : a = k
    · simp [mapSet, mapLookup, he]
    · simp only [mapSet, if_neg he, mapLookup]
      exact ih

theorem mapLookup_mapSet_ne {α : Type} (m : List (String × α)) (k k' : String) (v : α)
    (h : k' ≠ k) : mapLookup (mapSet m k v) k' = mapLookup m k' := by
  have hkk : ¬ k = k' := fun hk => h hk.symm
  induction m with
  | nil =>
    simp only [mapSet, mapLookup]
    rw [if_neg hkk]
  | cons e rest ih =>
    obtain ⟨a, b⟩ := e
    by_cases he : a = k
    · subst he
      simp only [mapSet, if_pos rfl, mapLookup]
      rw [if_neg hkk, if_neg hkk]
    · simp only [mapSet, if_neg he, mapLookup]
      by_cases he' : a = k'
      · rw [if_pos he', if_pos he']
      · rw [if_neg he', if_neg he', ih]

theorem mapLookup_mapDelete_ne {α : Type} (m : List (String × α)) (k k' : String)
    (h : k' ≠ k) : mapLookup (mapDelete m k) k' = mapLookup m k' := by
  induction m with
  | nil => simp [mapDelete, mapLookup]
  | cons e rest ih =>
    obtain ⟨a, b⟩ := e
    by_cases he : a = k
    · have he' : ¬ a = k' := fun hk => h (hk.symm.trans he)
      simp only [mapDelete, if_pos he, mapLookup]
      rw [if_neg he']
    · simp only [mapDelete, if_neg he, mapLookup]
      by_cases he' : a = k'
      · rw [if_pos he', if_pos he']
      · rw [if_neg he', if_neg he', ih]

theorem mapLookup_none_iff {α : Type} (m : List (String × α)) (k : String) :
    mapLookup m k = none ↔ k ∉ m.map Prod.fst := by
  induction m with
  | nil => simp [mapLookup]
  | cons e rest ih =>
    obtain ⟨a, b⟩ := e
    by_cases he : a = k
    · simp [mapLookup, he]
    · simp only [mapLookup, if_neg he, ih, List.map_cons, List.mem_cons]
      constructor
      · intro hn hor
        rcases hor with hk | hk
        · exact he hk.symm
        · exact hn hk
      · intro hn hk
        exact hn (Or.inr hk)

theorem mapLookup_mem {α : Type} (m : List (String × α)) (k : String) (v : α)
    (h : mapLookup m k = some v) : (k, v) ∈ m := by
  induction m with
  | nil => simp [mapLookup] at h
  | cons e rest ih =>
    obtain ⟨a, b⟩ := e
    by_cases he : a = k
    · simp only [mapLookup, if_pos he, Option.some.injEq] at h
      rw [← he, ← h]
      exact List.mem_cons_self _ _
    · simp only [mapLookup, if_neg he] at h
      exact List.mem_cons_of_mem _ (ih h)

theorem mem_mapDelete_of_ne {α : Type} (m : List (String × α)) (k k' : String) (v : α)
    (hmem : (k, v) ∈ m) (h : k ≠ k') : (k, v) ∈ mapDelete m k' := by
  induction m with
  | nil => simp at hmem
  | cons e rest ih =>
    obtain ⟨a, b⟩ := e
    rcases List.mem_cons.mp hmem with heq | hmem'
    · have ha : a = k := (congrArg Prod.fst heq).symm
      have hak : ¬ a = k' := fun hk => h (ha ▸ hk)
      simp only [mapDelete, if_neg hak]
      exact heq ▸ List.mem_cons_self _ _
    · by_cases hak : a = k'
      · simp only [mapDelete, if_pos hak]
        exact hmem'
      · simp only [mapDelete, if_neg hak]
        exact List.mem_cons_of_mem _ (ih hmem')

theorem mem_mapSet_of_ne {α : Type} (m : List (String × α)) (k k' : String) (v v' : α)
    (hmem : (k, v) ∈ m) (h : k ≠ k') : (k, v) ∈ mapSet m k' v' := by
  induction m with
  | nil => simp at hmem
  | cons e rest ih =>
    obtain ⟨a, b⟩ := e
    by_cases hak : a = k'
    · simp only [mapSet, if_pos hak]
      rcases List.mem_cons.mp hmem with heq | hmem'
      · have ha : a = k := (congrArg Prod.fst heq).symm
        exact absurd (ha ▸ hak) h
      · exact List.mem_cons_of_mem _ hmem'
    · simp only [mapSet, if_neg hak]
      rcases List.mem_cons.mp hmem with heq | hmem'
      · exact heq ▸ List.mem_cons_self _ _
      · exact List.mem_cons_of_mem _ (ih hmem')

theorem mapDelete_keys_subset {α : Type} (m : List (String × α)) (k k' : String)
    (hmem : k' ∈ (mapDelete m k).map Prod.fst) : k' ∈ m.map Prod.fst := by
  induction m with
  | nil => simp [mapDelete] at hmem
  | cons e rest ih =>
    obtain ⟨a, b⟩ := e
    by_cases he : a = k
    · simp only [mapDelete, if_pos he] at hmem
      exact List.mem_cons_of_mem _ hmem
    · simp only [mapDelete, if_neg he, List.map_cons, List.mem_cons] at hmem ⊢
      rcases hmem with hk | hk
      · exact Or.inl hk
      · exact Or.inr (ih hk)

theorem mapDelete_keys_sublist {α : Type} (m : List (String × α)) (k : String) :
    ((mapDelete m k).map Prod.fst).Sublist (m.map Prod.fst) := by
  induction m with
  | nil => simp [mapDelete]
  | cons e rest ih =>
    obtain ⟨a, b⟩ := e
    by_cases he : a = k
    · simp only [mapDelete, if_pos he, List.map_cons]
      exact List.sublist_cons_self _ _
    · simp only [mapDelete, if_neg he, List.map_cons]
      exact List.Sublist.cons₂ _ ih

theorem mapDelete_nodup {α : Type} (m : List (String × α)) (k : String)
    (hnd : (m.map Prod.fst).Nodup) : ((mapDelete m k).map Prod.fst).Nodup :=
  (mapDelete_keys_sublist m k).nodup hnd

theorem mapLookup_mapDelete_self {α : Type} (m : List (String × α)) (k : String)
    (hnd : (m.map Prod.fst).Nodup) : mapLookup (mapDelete m k) k = none := by
  induction m with
  | nil => simp [mapDelete, mapLookup]
  | cons e rest ih =>
    obtain ⟨a, b⟩ := e
    rw [List.map_cons] at hnd
    have hnd2 := List.nodup_cons.mp hnd
    by_cases he : a = k
    · simp only [mapDelete, if_pos he]
      rw [mapLookup_none_iff]
      exact he ▸ hnd2.1
    · simp only [mapDelete, if_neg he, mapLookup]
      exact ih hnd2.2

theorem mapDelete_lookup_none {α : Type} (m : List (String × α)) (k k' : String)
    (h : mapLookup m k = none) : mapLookup (mapDelete m k') k = none := by
  rw [mapLookup_none_iff] at h ⊢
  exact fun hmem => h (mapDelete_keys_subset m k' k hmem)

theorem mapDelete_length {α : Type} (m : List (String × α)) (k : String) (v : α)
    (h : mapLookup m k = some v) : (mapDelete m k).length + 1 = m.length := by
  induction m with
  | nil => simp [mapLookup] at h
  | cons e rest ih =>
    obtain ⟨a, b⟩ := e
    by_cases he : a = k
    · simp [mapDelete, he]
    · simp only [mapLookup, if_neg he] at h
      simp [mapDelete, he, ih h]

theorem mapSet_length_of_none {α : Type} (m : List (String × α)) (k : String) (v : α)
    (h : mapLookup m k = none) : (mapSet m k v).length = m.length + 1 := by
  induction m with
  | nil => simp [mapSet]
  | cons e rest ih =>
    obtain ⟨a, b⟩ := e
    by_cases he : a = k
    · simp [mapLookup, he] at h
    · simp only [mapLookup, if_neg he] at h
      simp [mapSet, he, ih h]

theorem mapSet_length_of_some {α : Type} (m : List (String × α)) (k : String) (v v' : α)
    (h : mapLookup m k = some v') : (mapSet m k v).length = m.length := by
  induction m with
  | nil => simp [mapLookup] at h
  | cons e rest ih =>
    obtain ⟨a, b⟩ := e
    by_cases he : a = k
    · simp [mapSet, he]
    · simp only [mapLookup, if_neg he] at h
      simp [mapSet, he, ih h]

theorem mapSet_keys_of_none {α : Type} (m : List (String × α)) (k : String) (v : α)
    (h : mapLookup m k = none) : (mapSet m k v).map Prod.fst = m.map Prod.fst ++ [k] := by
  induction m with
  | nil => simp [mapSet]
  | cons e rest ih =>
    obtain ⟨a, b⟩ := e
    by_cases he : a = k
    · simp [mapLookup, he] at h
    · simp only [mapLookup, if_neg he] at h
      simp [mapSet, he, ih h]

theorem mapSet_keys_of_some {α : Type} (m : List (String × α)) (k : String) (v v' : α)
    (h : mapLookup m k = some v') : (mapSet m k v).map Prod.fst = m.map Prod.fst := by
  induction m with
  | nil => simp [mapLookup] at h
  | cons e rest ih =>
    obtain ⟨a, b⟩ := e
    by_cases he : a = k
    · simp [mapSet, he]
    · simp only [mapLookup, if_neg he] at h
      simp [mapSet, he, ih h]

/-! Shared lemmas about the state operations. -/

theorem quadrantRemovePlayer_players (st : GameState) (q k : String) :
    (quadrantRemovePlayer st q k).players = st.players := by
  unfold quadrantRemovePlayer
  split <;> rfl

theorem quadrantRemovePlayer_food (st : GameState) (q k : String) :
    (quadrantRemovePlayer st q k).food = st.food := by
  unfold quadrantRemovePlayer
  split <;> rfl

theorem quadrantAddPlayer_players (st : GameState) (q k : String) :
    (quadrantAddPlayer st q k).players = st.players := by
  unfold quadrantAddPlayer
  split <;> rfl

theorem quadrantAddPlayer_food (st : GameState) (q k : String) :
    (quadrantAddPlayer st q k).food = st.food := by
  unfold quadrantAddPlayer
  split <;> rfl

theorem quadrantRemoveFood_players (st : GameState) (q k : String) :
    (quadrantRemoveFood st q k).players = st.players := by
  unfold quadrantRemoveFood
  split <;> rfl

theorem quadrantRemoveFood_food (st : GameState) (q k : String) :
    (quadrantRemoveFood st q k).food = st.food := by
  unfold quadrantRemoveFood
  split <;> rfl

theorem quadrantAddFood_players (st : GameState) (q k : String) :
    (quadrantAddFood st q k).players = st.players := by
  unfold quadrantAddFood
  split <;> rfl

theorem quadrantAddFood_food (st : GameState) (q k : String) :
    (quadrantAddFood st q k).food = st.food := by
  unfold quadrantAddFood
  split <;> rfl

theorem updatePlayerQuadrant_players (st : GameState) (pid : String)
    (old : Option (ℚ × ℚ)) :
    (updatePlayerQuadrant st pid old).players =
      match mapLookup st.players pid with
      | none => st.players
      | some p => mapSet st.players pid { p with quadrant := some (getQuadrantId p.x p.y) } := by
  unfold updatePlayerQuadrant
  cases h : mapLookup st.players pid with
  | none => rfl
  | some p =>
    simp only [setPlayer, quadrantAddPlayer_players]
    cases old with
    | none => rfl
    | some oldPos =>
      by_cases hq : getQuadrantId oldPos.1 oldPos.2 ≠ getQuadrantId p.x p.y
      · simp only [if_pos hq, quadrantRemovePlayer_players]
      · simp only [if_neg hq]

theorem updatePlayerQuadrant_food (st : GameState) (pid : String)
    (old : Option (ℚ × ℚ)) : (updatePlayerQuadrant st pid old).food = st.food := by
  unfold updatePlayerQuadrant
  cases h : mapLookup st.players pid with
  | none => rfl
  | some p =>
    simp only [setPlayer, quadrantAddPlayer_food]
    cases old with
    | none => rfl
    | some oldPos =>
      by_cases hq : getQuadrantId oldPos.1 oldPos.2 ≠ getQuadrantId p.x p.y
      · simp only [if_pos hq, quadrantRemovePlayer_food]
      · simp only [if_neg hq]

theorem updatePlayerQuadrant_lookup_ne (st : GameState) (pid k : String)
    (old : Option (ℚ × ℚ)) (h : k ≠ pid) :
    mapLookup (updatePlayerQuadrant st pid old).players k = mapLookup st.players k := by
  rw [updatePlayerQuadrant_players]
  cases hp : mapLookup st.players pid with
  | none => rfl
  | some p => exact mapLookup_mapSet_ne _ _ _ _ h

theorem updatePlayerQuadrant_lookup_self (st : GameState) (pid : String)
    (old : Option (ℚ × ℚ)) (p : Player) (hp : mapLookup st.players pid = some p) :
    mapLookup (updatePlayerQuadrant st pid old).players pid =
      some { p with quadrant := some (getQuadrantId p.x p.y) } := by
  rw [updatePlayerQuadrant_players, hp]
  exact mapLookup_mapSet_self _ _ _

theorem updateFoodQuadrant_players (st : GameState) (fid : String) :
    (updateFoodQuadrant st fid).players = st.players := by
  unfold updateFoodQuadrant
  cases h : mapLookup st.food fid with
  | none => rfl
  | some f =>
    show (quadrantAddFood _ _ fid).players = _
    simp [quadrantAddFood_players]

theorem spawnFood_players (fs : FoodSpec) (st : GameState) :
    (spawnFood fs st).players = st.players := by
  unfold spawnFood
  rw [updateFoodQuadrant_players]

/-- Uniqueness of the nonnegative square root over the rationals. -/
theorem nonneg_sq_eq (a b : ℚ) (ha : 0 ≤ a) (hb : 0 ≤ b) (h : a ^ 2 = b ^ 2) :
    a = b := by
  have key : (a - b) * (a + b) = 0 := by linear_combination h
  rcases mul_eq_zero.mp key with h0 | h0
  · linarith [sub_eq_zero.mp h0]
  · have hb0 : b = 0 := by linarith
    have ha0 : a = 0 := by linarith
    rw [ha0, hb0]

/-- A `SqrtOk` oracle takes the exact value of the square root whenever the
radicand is a perfect square of a nonnegative rational. -/
theorem sqrtOk_val (f : ℚ → ℚ) (s v : ℚ) (h : SqrtOk f s) (hv : 0 ≤ v)
    (hvs : v ^ 2 = s) : f s = v :=
  nonneg_sq_eq (f s) v h.1 hv (by rw [h.2, hvs])

/-- Full specification of `handlePlayerEaten` on a live, distinct pair: the
eater's gains, the eaten cell's in-place reset, and the frame on every other
entry of the world map. -/
theorem handlePlayerEaten_spec
    (qsqrt : ℚ → ℚ) (rx ry : ℚ) (st : GameState) (eatenId eaterId : String)
    (eaten eater : Player)
    (hne : eatenId ≠ eaterId)
    (he : mapLookup st.players eatenId = some eaten)
    (hr : mapLookup st.players eaterId = some eater) :
    mapLookup (handlePlayerEaten qsqrt rx ry st eatenId eaterId).players eaterId
      = some { eater with mass := eater.mass + eaten.mass * (4 / 5),
                          radius := massToRadius qsqrt (eater.mass + eaten.mass * (4 / 5)),
                          score := eater.score + mathRound (eaten.mass * (4 / 5)) }
    ∧ mapLookup (handlePlayerEaten qsqrt rx ry st eatenId eaterId).players eatenId
      = some { eaten with x := rx * WORLD_WIDTH, y := ry * WORLD_HEIGHT,
                          mass := BASE_MASS, radius := BASE_RADIUS, score := 0,
                          quadrant := some (getQuadrantId (rx * WORLD_WIDTH) (ry * WORLD_HEIGHT)) }
    ∧ ∀ k, k ≠ eatenId → k ≠ eaterId →
        mapLookup (handlePlayerEaten qsqrt rx ry st eatenId eaterId).players k
          = mapLookup st.players k := by
  have hne' : eaterId ≠ eatenId := fun hk => hne hk.symm
  simp only [handlePlayerEaten, he, hr]
  refine ⟨?_, ?_, ?_⟩
  · rw [updatePlayerQuadrant_lookup_ne _ _ _ _ hne']
    simp only [setPlayer]
    rw [mapLookup_mapSet_ne _ _ _ _ hne', mapLookup_mapSet_self]
  · have hlook : mapLookup (setPlayer (setPlayer st eaterId
        { eater with mass := eater.mass + eaten.mass * (4 / 5),
                     radius := massToRadius qsqrt (eater.mass + eaten.mass * (4 / 5)),
                     score := eater.score + mathRound (eaten.mass * (4 / 5)) }) eatenId
        { eaten with x := rx * WORLD_WIDTH, y := ry * WORLD_HEIGHT,
                     mass := BASE_MASS, radius := BASE_RADIUS, score := 0 }).players eatenId
      = some { eaten with x := rx * WORLD_WIDTH, y := ry * WORLD_HEIGHT,
                          mass := BASE_MASS, radius := BASE_RADIUS, score := 0 } := by
      simp only [setPlayer]
      exact mapLookup_mapSet_self _ _ _
    rw [updatePlayerQuadrant_lookup_self _ _ _ _ hlook]
  · intro k hk1 hk2
    rw [updatePlayerQuadrant_lookup_ne _ _ _ _ hk1]
    simp only [setPlayer]
    rw [mapLookup_mapSet_ne _ _ _ _ hk1, mapLookup_mapSet_ne _ _ _ _ hk2]

/-- The entry the `join` handler leaves under the connection id: the fresh
cell, with its quadrant cached by `updatePlayerQuadrant`. -/
theorem handleJoin_lookup_self (st : GameState) (sid name color : String) (r1 r2 : ℚ) :
    mapLookup (handleJoin st sid name r1 r2 color).players sid
      = some { id := sid, x := r1 * WORLD_WIDTH, y := r2 * WORLD_HEIGHT,
               radius := BASE_RADIUS, color := color,
               name := (if name = "" then "Anonymous" else name).take 15,
               mass := BASE_MASS, isBot := false, behavior := Behavior.neutral,
               aggression := 1 / 2, parentId := none, splitParts := [], score := 0,
               isControlled := true,
               quadrant := some (getQuadrantId (r1 * WORLD_WIDTH) (r2 * WORLD_HEIGHT)) } := by
  simp only [handleJoin]
  rw [updatePlayerQuadrant_players]
  simp only [mapLookup_mapSet_self]

/-! Concrete fixtures used by witnesses and counterexamples. -/

/-- A default human cell record with the given id, position, radius and mass
(the remaining fields take the values the join handler assigns). -/
def basePlayer (i : String) (px py r m : ℚ) : Player :=
  { id := i, x := px, y := py, radius := r, color := "#FF6B6B", name := i,
    mass := m, isBot := false, behavior := Behavior.neutral, aggression := 1 / 2,
    parentId := none, splitParts := [], score := 0, isControlled := true,
    quadrant := none }

/-- Overlapping pair fixture: a 200-mass cell at the origin and a 100-mass
cell 30 units away (radii 21 and 15, so they overlap). -/
def witA : Player := basePlayer "A" 0 0 21 200

/-- The 100-mass cell of the overlapping pair fixture. -/
def witB : Player := basePlayer "B" 30 0 15 100

/-- The two-cell world of the overlapping pair fixture. -/
def witStAB : GameState :=
  { players := [("A", witA), ("B", witB)], food := [], quadrants := [] }

/-- Square-root oracle correct at 900 (the squared distance of the pair). -/
def sqrtW1 : ℚ → ℚ := fun s => if s = 900 then 30 else 0

/-- C1: for a pair of distinct overlapping cells (`distance < radiusA +
radiusB` at the moment of the check) outside the same lineage, one cell eats
the other exactly when its mass strictly exceeds the other's times the eat
ratio 1.15; when neither mass exceeds 1.15 times the other (which covers
every ratio in `(1.0, 1.15]`), `checkPlayerCollision` returns the state
unchanged, so neither cell is removed or reset and both masses are
untouched; with nonnegative masses the two eat directions are mutually
exclusive. -/
theorem C1_eat_iff_mass_ratio
    (qsqrt : ℚ → ℚ) (st : GameState) (pid oid : String) (p o : Player)
    (e : EatSpec) (eats : List EatSpec)
    (hp : mapLookup st.players pid = some p)
    (ho : mapLookup st.players oid = some o)
    (hlineage : samePlayerPair p o = false)
    (hoverlap : distance qsqrt p.x p.y o.x o.y < p.radius + o.radius)
    (hpm : 0 ≤ p.mass) (hom : 0 ≤ o.mass) :
    (p.mass > o.mass * (23 / 20) →
      checkPlayerCollision qsqrt st pid oid (e :: eats)
        = some (handlePlayerEaten qsqrt e.rx e.ry st oid pid, eats))
    ∧ (o.mass > p.mass * (23 / 20) →
      checkPlayerCollision qsqrt st pid oid (e :: eats)
        = some (handlePlayerEaten qsqrt e.rx e.ry st pid oid, eats))
    ∧ (p.mass ≤ o.mass * (23 / 20) → o.mass ≤ p.mass * (23 / 20) →
      checkPlayerCollision qsqrt st pid oid (e :: eats) = some (st, e :: eats))
    ∧ ¬(p.mass > o.mass * (23 / 20) ∧ o.mass > p.mass * (23 / 20)) := by
  refine ⟨?_, ?_, ?_, ?_⟩
  · intro h1
    simp [checkPlayerCollision, hp, ho, hlineage, hoverlap, h1]
  · intro h2
    have hn1 : ¬ (p.mass > o.mass * (23 / 20)) := by nlinarith
    simp [checkPlayerCollision, hp, ho, hlineage, hoverlap, hn1, h2]
  · intro h3 h4
    have hn1 : ¬ (p.mass > o.mass * (23 / 20)) := not_lt.mpr h3
    have hn2 : ¬ (o.mass > p.mass * (23 / 20)) := not_lt.mpr h4
    simp [checkPlayerCollision, hp, ho, hlineage, hoverlap, hn1, hn2]
  · rintro ⟨h1, h2⟩
    nlinarith

/-- Witness for C1 at the overlapping pair fixture: the 200-mass cell eats
the 100-mass cell (200 > 100 × 1.15). -/
theorem C1_eat_iff_mass_ratio_witness :
    checkPlayerCollision sqrtW1 witStAB "A" "B" [{ rx := 1 / 2, ry := 1 / 2 }]
      = some (handlePlayerEaten sqrtW1 (1 / 2) (1 / 2) witStAB "B" "A", []) :=
  (C1_eat_iff_mass_ratio sqrtW1 witStAB "A" "B" witA witB
      { rx := 1 / 2, ry := 1 / 2 } []
      (by simp [witStAB, mapLookup]) (by simp [witStAB, mapLookup])
      (by rfl)
      (by norm_num [distance, distSq, sqrtW1, witA, witB, basePlayer])
      (by norm_num [witA, basePlayer]) (by norm_num [witB, basePlayer])).1
    (by norm_num [witA, witB, basePlayer])

/-- Fragment-eaten fixture: parent `P` with fragment list `["F"]`, its
fragment `F`, and a 500-mass eater `E` overlapping `F`. -/
def c2P : Player := { basePlayer "P" 0 0 15 100 with splitParts := ["F"] }

/-- The fragment of the fragment-eaten fixture. -/
def c2F : Player := { basePlayer "F" 2000 0 15 100 with parentId := some "P" }

/-- The eater of the fragment-eaten fixture. -/
def c2E : Player := basePlayer "E" 2010 0 33 500

/-- The three-cell world of the fragment-eaten fixture. -/
def c2St : GameState :=
  { players := [("P", c2P), ("F", c2F), ("E", c2E)], food := [], quadrants := [] }

/-- C2 counterexample: when the fragment `F` is eaten, `handlePlayerEaten`
does not remove it from the world — it is reset in place to base mass — and
its identifier is not dropped from its parent's fragment list, contradicting
the claim that an eaten fragment is removed entirely and unlinked. -/
theorem C2_fragment_removed_counterexample :
    ((mapLookup (handlePlayerEaten (fun s => s) (1 / 2) (1 / 2) c2St "F" "E").players "F").map
        Player.mass = some BASE_MASS)
    ∧ ((mapLookup (handlePlayerEaten (fun s => s) (1 / 2) (1 / 2) c2St "F" "E").players "P").map
        Player.splitParts = some ["F"]) := by
  have hF : mapLookup c2St.players "F" = some c2F := by simp [c2St, mapLookup]
  have hE : mapLookup c2St.players "E" = some c2E := by simp [c2St, mapLookup]
  have hspec := handlePlayerEaten_spec (fun s => s) (1 / 2) (1 / 2) c2St "F" "E" c2F c2E
    (by decide) hF hE
  refine ⟨?_, ?_⟩
  · rw [hspec.2.1]
    rfl
  · have hP : mapLookup c2St.players "P" = some c2P := by simp [c2St, mapLookup]
    rw [hspec.2.2 "P" (by decide) (by decide), hP]
    rfl

/-- C2 amended: when cell E eats cell S, E's mass increases by exactly
0.8 × S.mass and E's score by the rounded same amount; every eaten cell —
top-level or fragment alike — is reset in place under its own identifier to
a new random position with base mass, base radius and zero score; no cell is
removed from the world and no fragment list is modified (all other map
entries are untouched). -/
theorem C2_eaten_reset_in_place
    (qsqrt : ℚ → ℚ) (rx ry : ℚ) (st : GameState) (eatenId eaterId : String)
    (eaten eater : Player)
    (hne : eatenId ≠ eaterId)
    (he : mapLookup st.players eatenId = some eaten)
    (hr : mapLookup st.players eaterId = some eater) :
    mapLookup (handlePlayerEaten qsqrt rx ry st eatenId eaterId).players eaterId
      = some { eater with mass := eater.mass + eaten.mass * (4 / 5),
                          radius := massToRadius qsqrt (eater.mass + eaten.mass * (4 / 5)),
                          score := eater.score + mathRound (eaten.mass * (4 / 5)) }
    ∧ mapLookup (handlePlayerEaten qsqrt rx ry st eatenId eaterId).players eatenId
      = some { eaten with x := rx * WORLD_WIDTH, y := ry * WORLD_HEIGHT,
                          mass := BASE_MASS, radius := BASE_RADIUS, score := 0,
                          quadrant := some (getQuadrantId (rx * WORLD_WIDTH) (ry * WORLD_HEIGHT)) }
    ∧ ∀ k, k ≠ eatenId → k ≠ eaterId →
        mapLookup (handlePlayerEaten qsqrt rx ry st eatenId eaterId).players k
          = mapLookup st.players k :=
  handlePlayerEaten_spec qsqrt rx ry st eatenId eaterId eaten eater hne he hr

/-- Witness for the amended C2 at the fragment-eaten fixture. -/
theorem C2_eaten_reset_in_place_witness :
    mapLookup (handlePlayerEaten (fun s => s) (1 / 2) (1 / 2) c2St "F" "E").players "E"
      = some { c2E with mass := c2E.mass + c2F.mass * (4 / 5),
                        radius := massToRadius (fun s => s) (c2E.mass + c2F.mass * (4 / 5)),
                        score := c2E.score + mathRound (c2F.mass * (4 / 5)) } :=
  (C2_eaten_reset_in_place (fun s => s) (1 / 2) (1 / 2) c2St "F" "E" c2F c2E
    (by decide) (by simp [c2St, mapLookup]) (by simp [c2St, mapLookup])).1

/-- Square-root oracle correct at the base mass 100. -/
def c3Sqrt : ℚ → ℚ := fun s => if s = 100 then 10 else 0

/-- The empty world. -/
def emptyState : GameState := { players := [], food := [], quadrants := [] }

/-- C3 counterexample: `massToRadius(BASE_MASS) = √100 × 1.5 = 15`, but a
cell immediately after join has `radius = BASE_RADIUS = 20` and
`mass = BASE_MASS = 100`, so `radius = massToRadius(mass)` fails right after
a join (and likewise after the identical respawn assignment). -/
theorem C3_join_radius_counterexample :
    SqrtOk c3Sqrt BASE_MASS
    ∧ ((mapLookup (handleJoin emptyState "p1" "alice" (1 / 10) (1 / 10) "#FF6B6B").players
        "p1").map Player.radius = some BASE_RADIUS)
    ∧ ((mapLookup (handleJoin emptyState "p1" "alice" (1 / 10) (1 / 10) "#FF6B6B").players
        "p1").map Player.mass = some BASE_MASS)
    ∧ massToRadius c3Sqrt BASE_MASS ≠ BASE_RADIUS := by
  refine ⟨?_, ?_, ?_, ?_⟩
  · norm_num [SqrtOk, c3Sqrt, BASE_MASS]
  · rw [handleJoin_lookup_self]
    rfl
  · rw [handleJoin_lookup_self]
    rfl
  · norm_num [massToRadius, c3Sqrt, BASE_MASS, BASE_RADIUS]

/-- C3 amended: `massToRadius` is the single monotonically increasing
mass-to-radius function, and mass-changing operations (here: an eat)
recompute the eater's radius through it; but the invariant
`radius = massToRadius(mass)` does not hold after every state change — a
freshly joined cell (and an eaten cell's respawn, which assigns the same
`BASE_RADIUS`/`BASE_MASS` pair) carries `radius = 20` with `mass = 100`,
while `massToRadius(100) = 15`. -/
theorem C3_radius_invariant_amended
    (qsqrt : ℚ → ℚ) (st : GameState) (sid name color : String) (r1 r2 : ℚ)
    (hs : SqrtOk qsqrt BASE_MASS) :
    ((mapLookup (handleJoin st sid name r1 r2 color).players sid).map Player.radius
      = some BASE_RADIUS)
    ∧ ((mapLookup (handleJoin st sid name r1 r2 color).players sid).map Player.mass
      = some BASE_MASS)
    ∧ massToRadius qsqrt BASE_MASS = 15
    ∧ BASE_RADIUS ≠ massToRadius qsqrt BASE_MASS
    ∧ (∀ m1 m2, SqrtOk qsqrt m1 → SqrtOk qsqrt m2 → m1 < m2 →
        massToRadius qsqrt m1 < massToRadius qsqrt m2)
    ∧ (∀ (st2 : GameState) (a b : String) (pa pb : Player) (rx ry : ℚ), a ≠ b →
        mapLookup st2.players a = some pa → mapLookup st2.players b = some pb →
        (mapLookup (handlePlayerEaten qsqrt rx ry st2 a b).players b).map Player.radius
          = some (massToRadius qsqrt (pb.mass + pa.mass * (4 / 5)))) := by
  have h10 : qsqrt BASE_MASS = 10 := sqrtOk_val qsqrt BASE_MASS 10 hs (by norm_num)
    (by norm_num [BASE_MASS])
  have h15 : massToRadius qsqrt BASE_MASS = 15 := by
    rw [massToRadius, h10]
    norm_num
  refine ⟨?_, ?_, h15, ?_, ?_, ?_⟩
  · rw [handleJoin_lookup_self]
    rfl
  · rw [handleJoin_lookup_self]
    rfl
  · rw [h15]
    norm_num [BASE_RADIUS]
  · intro m1 m2 h1 h2 hlt
    have hf : qsqrt m1 < qsqrt m2 := by nlinarith [h1.1, h2.1, h1.2, h2.2]
    simp only [massToRadius]
    linarith
  · intro st2 a b pa pb rx ry hab ha hb
    rw [(handlePlayerEaten_spec qsqrt rx ry st2 a b pa pb hab ha hb).1]
    rfl

/-- Witness for the amended C3 with the oracle correct at the base mass. -/
theorem C3_radius_invariant_amended_witness :
    ((mapLookup (handleJoin emptyState "p1" "alice" (1 / 10) (1 / 10) "#FF6B6B").players
        "p1").map Player.radius = some BASE_RADIUS)
    ∧ ((mapLookup (handleJoin emptyState "p1" "alice" (1 / 10) (1 / 10) "#FF6B6B").players
        "p1").map Player.mass = some BASE_MASS)
    ∧ massToRadius c3Sqrt BASE_MASS = 15
    ∧ BASE_RADIUS ≠ massToRadius c3Sqrt BASE_MASS
    ∧ (∀ m1 m2, SqrtOk c3Sqrt m1 → SqrtOk c3Sqrt m2 → m1 < m2 →
        massToRadius c3Sqrt m1 < massToRadius c3Sqrt m2)
    ∧ (∀ (st2 : GameState) (a b : String) (pa pb : Player) (rx ry : ℚ), a ≠ b →
        mapLookup st2.players a = some pa → mapLookup st2.players b = some pb →
        (mapLookup (handlePlayerEaten c3Sqrt rx ry st2 a b).players b).map Player.radius
          = some (massToRadius c3Sqrt (pb.mass + pa.mass * (4 / 5)))) :=
  C3_radius_invariant_amended c3Sqrt emptyState "p1" "alice" "#FF6B6F" (1 / 10) (1 / 10)
    (by norm_num [SqrtOk, c3Sqrt, BASE_MASS])

/-- Split fixture: a 200-mass cell at (100, 100). -/
def c5P : Player := basePlayer "P" 100 100 21 200

/-- The one-cell world of the split fixture. -/
def c5St : GameState := { players := [("P", c5P)], food := [], quadrants := [] }

/-- Square-root oracle correct at 100 (the post-split mass of the fixture). -/
def c5Sqrt : ℚ → ℚ := fun s => if s = 100 then 10 else 0

/-- C5: `handleSplit` is a no-op when the owner's mass is below
`MIN_SPLIT_MASS`; when the owner's mass `M` is at least `MIN_SPLIT_MASS`,
afterwards the owner and the fragment each carry mass `M / 2` (combined
`M`), the fragment has `parentId` equal to the owner's id, zero score,
inherited color and name, it is registered in the world map and appended to
the owner's fragment list, and its distance from the owner equals — hence is
at least — `2 × massToRadius(M / 2)`. -/
theorem C5_split_spec
    (qsqrt : ℚ → ℚ) (st : GameState) (pid newPartId : String) (player : Player)
    (cosA sinA : ℚ)
    (hp : mapLookup st.players pid = some player)
    (hm : MIN_SPLIT_MASS ≤ player.mass)
    (hs : SqrtOk qsqrt (player.mass / 2))
    (hangle : cosA ^ 2 + sinA ^ 2 = 1)
    (hfresh : newPartId ≠ pid) :
    ∃ owner1 frag1,
      mapLookup (handleSplit qsqrt st pid newPartId cosA sinA).players pid = some owner1
      ∧ mapLookup (handleSplit qsqrt st pid newPartId cosA sinA).players newPartId = some frag1
      ∧ owner1.mass = player.mass / 2
      ∧ frag1.mass = player.mass / 2
      ∧ owner1.mass + frag1.mass = player.mass
      ∧ frag1.parentId = some pid
      ∧ frag1.score = 0
      ∧ frag1.color = player.color
      ∧ frag1.name = player.name
      ∧ owner1.splitParts = player.splitParts ++ [newPartId]
      ∧ distSq owner1.x owner1.y frag1.x frag1.y
          = (2 * massToRadius qsqrt (player.mass / 2)) ^ 2
      ∧ (∀ d : ℚ, 0 ≤ d → d ^ 2 = distSq owner1.x owner1.y frag1.x frag1.y →
          2 * massToRadius qsqrt (player.mass / 2) ≤ d)
      ∧ (∀ (st2 : GameState) (pid2 partId2 : String) (c s : ℚ) (p2 : Player),
          mapLookup st2.players pid2 = some p2 → p2.mass < MIN_SPLIT_MASS →
          handleSplit qsqrt st2 pid2 partId2 c s = st2) := by
  have hne : pid ≠ newPartId := fun h => hfresh h.symm
  have hnotlt : ¬ (player.mass < MIN_SPLIT_MASS) := not_lt.mpr hm
  have hr0 : 0 ≤ massToRadius qsqrt (player.mass / 2) :=
    mul_nonneg hs.1 (by norm_num)
  have hmain : mapLookup (handleSplit qsqrt st pid newPartId cosA sinA).players pid
      = some { player with mass := player.mass / 2,
                           radius := massToRadius qsqrt (player.mass / 2),
                           splitParts := player.splitParts ++ [newPartId] } := by
    simp only [handleSplit, hp]
    rw [if_neg hnotlt]
    rw [updatePlayerQuadrant_lookup_ne _ _ _ _ hne]
    simp only [setPlayer]
    rw [mapLookup_mapSet_ne _ _ _ _ hne, mapLookup_mapSet_self]
  have hfrag : mapLookup (handleSplit qsqrt st pid newPartId cosA sinA).players newPartId
      = some { id := newPartId,
               x := player.x + cosA * (massToRadius qsqrt (player.mass / 2) * 2),
               y := player.y + sinA * (massToRadius qsqrt (player.mass / 2) * 2),
               radius := massToRadius qsqrt (player.mass / 2),
               mass := player.mass / 2, color := player.color, name := player.name,
               isBot := false, behavior := Behavior.neutral, aggression := 1 / 2,
               parentId := some pid, splitParts := [], score := 0, isControlled := true,
               quadrant := some (getQuadrantId
                 (player.x + cosA * (massToRadius qsqrt (player.mass / 2) * 2))
                 (player.y + sinA * (massToRadius qsqrt (player.mass / 2) * 2))) } := by
    simp only [handleSplit, hp]
    rw [if_neg hnotlt]
    rw [updatePlayerQuadrant_players]
    simp only [setPlayer, mapLookup_mapSet_self]
  have hdist : distSq player.x player.y
      (player.x + cosA * (massToRadius qsqrt (player.mass / 2) * 2))
      (player.y + sinA * (massToRadius qsqrt (player.mass / 2) * 2))
      = (2 * massToRadius qsqrt (player.mass / 2)) ^ 2 := by
    simp only [distSq]
    linear_combination (4 * (massToRadius qsqrt (player.mass / 2)) ^ 2) * hangle
  refine ⟨_, _, hmain, hfrag, rfl, rfl, by ring, rfl, rfl, rfl, rfl, rfl, hdist, ?_, ?_⟩
  · intro d hd hdsq
    have hdd : d = 2 * massToRadius qsqrt (player.mass / 2) :=
      nonneg_sq_eq d _ hd (by linarith) (hdsq.trans hdist)
    exact le_of_eq hdd.symm
  · intro st2 pid2 partId2 c s p2 h1 h2
    simp only [handleSplit, h1]
    rw [if_pos h2]

/-- Witness for C5 at the split fixture: mass 200 ≥ 50 splits into two cells
of mass 100, the fragment 30 = 2 × massToRadius(100) away. -/
theorem C5_split_spec_witness :
    ∃ owner1 frag1,
      mapLookup (handleSplit c5Sqrt c5St "P" "P1" 1 0).players "P" = some owner1
      ∧ mapLookup (handleSplit c5Sqrt c5St "P" "P1" 1 0).players "P1" = some frag1
      ∧ owner1.mass = c5P.mass / 2
      ∧ frag1.mass = c5P.mass / 2
      ∧ owner1.mass + frag1.mass = c5P.mass
      ∧ frag1.parentId = some "P"
      ∧ frag1.score = 0
      ∧ frag1.color = c5P.color
      ∧ frag1.name = c5P.name
      ∧ owner1.splitParts = c5P.splitParts ++ ["P1"]
      ∧ distSq owner1.x owner1.y frag1.x frag1.y
          = (2 * massToRadius c5Sqrt (c5P.mass / 2)) ^ 2
      ∧ (∀ d : ℚ, 0 ≤ d → d ^ 2 = distSq owner1.x owner1.y frag1.x frag1.y →
          2 * massToRadius c5Sqrt (c5P.mass / 2) ≤ d)
      ∧ (∀ (st2 : GameState) (pid2 partId2 : String) (c s : ℚ) (p2 : Player),
          mapLookup st2.players pid2 = some p2 → p2.mass < MIN_SPLIT_MASS →
          handleSplit c5Sqrt st2 pid2 partId2 c s = st2) :=
  C5_split_spec c5Sqrt c5St "P" "P1" c5P 1 0
    (by simp [c5St, mapLookup])
    (by norm_num [c5P, basePlayer, MIN_SPLIT_MASS])
    (by norm_num [SqrtOk, c5Sqrt, c5P, basePlayer])
    (by norm_num)
    (by decide)

/-- Movement fixture: a cell at (100, 100) with radius 20. -/
def c7P : Player := basePlayer "M" 100 100 20 100

/-- The one-cell world of the movement fixture. -/
def c7St : GameState := { players := [("M", c7P)], food := [], quadrants := [] }

/-- The movement fixture with a hundredfold heavier cell. -/
def c7StHeavy : GameState :=
  { players := [("M", { c7P with mass := 10000 })], food := [], quadrants := [] }

/-- Square-root oracle correct at 36 (the squared distance to the target). -/
def c7Sqrt : ℚ → ℚ := fun s => if s = 36 then 6 else 0

/-- C7 counterexample: a cell at (100, 100) with the target at (106, 100) —
distance 6, beyond the dead zone — moves to x = 115: it advances by 15 > 6,
not by `min(distance, speed)`, overshooting the target (106 < 115); and a
cell with a hundred times the mass moves by exactly the same amount, so
larger cells are not slower. -/
theorem C7_min_speed_counterexample :
    SqrtOk c7Sqrt (distSq 100 100 106 100)
    ∧ ((mapLookup (movePlayerTowardsTarget c7Sqrt c7St "M" 106 100).players "M").map Player.x
        = some 115)
    ∧ ¬ ((115 : ℚ) - 100 ≤ 106 - 100)
    ∧ (106 : ℚ) < 115
    ∧ ((mapLookup (movePlayerTowardsTarget c7Sqrt c7StHeavy "M" 106 100).players "M").map Player.x
        = some 115) := by
  have hfloor1 : (⌊(100 : ℚ) / 500⌋ : ℤ) = 0 := by norm_num
  have hfloor2 : (⌊(115 : ℚ) / 500⌋ : ℤ) = 0 := by norm_num
  refine ⟨⟨by norm_num [c7Sqrt, distSq], by norm_num [c7Sqrt, distSq]⟩, ?_, by norm_num,
    by norm_num, ?_⟩
  · norm_num [movePlayerTowardsTarget, c7St, c7P, basePlayer, mapLookup, distance, distSq,
      c7Sqrt, PLAYER_SPEED, WORLD_WIDTH, WORLD_HEIGHT, setPlayer, mapSet,
      updatePlayerQuadrant, quadrantAddPlayer, quadrantRemovePlayer, getQuadrantId,
      QUADRANT_SIZE, hfloor1, hfloor2, mapLookup_mapSet_self]
  · norm_num [movePlayerTowardsTarget, c7StHeavy, c7P, basePlayer, mapLookup, distance, distSq,
      c7Sqrt, PLAYER_SPEED, WORLD_WIDTH, WORLD_HEIGHT, setPlayer, mapSet,
      updatePlayerQuadrant, quadrantAddPlayer, quadrantRemovePlayer, getQuadrantId,
      QUADRANT_SIZE, hfloor1, hfloor2, mapLookup_mapSet_self]

/-- C7 amended: inside the dead zone (distance ≤ 5) the cell does not move;
beyond it, the cell advances by exactly `PLAYER_SPEED = 15` along the unit
vector to the target (independent of its mass), clamped to the world — when
the clamp is inactive the new position is `p + (Δ/dist)·15` and the squared
displacement is `PLAYER_SPEED²`. -/
theorem C7_move_fixed_speed
    (qsqrt : ℚ → ℚ) (st : GameState) (pid : String) (p : Player) (tx ty : ℚ)
    (hp : mapLookup st.players pid = some p) :
    (¬ (distance qsqrt p.x p.y tx ty > 5) →
      movePlayerTowardsTarget qsqrt st pid tx ty = st)
    ∧ ∀ d, d = distance qsqrt p.x p.y tx ty → 5 < d →
        p.radius ≤ p.x + (tx - p.x) / d * PLAYER_SPEED →
        p.x + (tx - p.x) / d * PLAYER_SPEED ≤ WORLD_WIDTH - p.radius →
        p.radius ≤ p.y + (ty - p.y) / d * PLAYER_SPEED →
        p.y + (ty - p.y) / d * PLAYER_SPEED ≤ WORLD_HEIGHT - p.radius →
        ((mapLookup (movePlayerTowardsTarget qsqrt st pid tx ty).players pid).map Player.x
            = some (p.x + (tx - p.x) / d * PLAYER_SPEED))
        ∧ ((mapLookup (movePlayerTowardsTarget qsqrt st pid tx ty).players pid).map Player.y
            = some (p.y + (ty - p.y) / d * PLAYER_SPEED))
        ∧ (SqrtOk qsqrt (distSq p.x p.y tx ty) →
            distSq p.x p.y (p.x + (tx - p.x) / d * PLAYER_SPEED)
              (p.y + (ty - p.y) / d * PLAYER_SPEED) = PLAYER_SPEED ^ 2) := by
  constructor
  · intro hno
    simp only [movePlayerTowardsTarget, hp]
    rw [if_neg hno]
  · intro d hd h5 hcx1 hcx2 hcy1 hcy2
    subst hd
    have hgt : distance qsqrt p.x p.y tx ty > 5 := h5
    have hminx : min (WORLD_WIDTH - p.radius)
        (p.x + (tx - p.x) / distance qsqrt p.x p.y tx ty * PLAYER_SPEED)
        = p.x + (tx - p.x) / distance qsqrt p.x p.y tx ty * PLAYER_SPEED :=
      min_eq_right hcx2
    have hmaxx : max p.radius
        (p.x + (tx - p.x) / distance qsqrt p.x p.y tx ty * PLAYER_SPEED)
        = p.x + (tx - p.x) / distance qsqrt p.x p.y tx ty * PLAYER_SPEED :=
      max_eq_right hcx1
    have hminy : min (WORLD_HEIGHT - p.radius)
        (p.y + (ty - p.y) / distance qsqrt p.x p.y tx ty * PLAYER_SPEED)
        = p.y + (ty - p.y) / distance qsqrt p.x p.y tx ty * PLAYER_SPEED :=
      min_eq_right hcy2
    have hmaxy : max p.radius
        (p.y + (ty - p.y) / distance qsqrt p.x p.y tx ty * PLAYER_SPEED)
        = p.y + (ty - p.y) / distance qsqrt p.x p.y tx ty * PLAYER_SPEED :=
      max_eq_right hcy1
    have hlook : ∀ q : GameState, q.players = mapSet st.players pid
          { p with x := p.x + (tx - p.x) / distance qsqrt p.x p.y tx ty * PLAYER_SPEED,
                   y := p.y + (ty - p.y) / distance qsqrt p.x p.y tx ty * PLAYER_SPEED } →
        (mapLookup q.players pid).map Player.x
            = some (p.x + (tx - p.x) / distance qsqrt p.x p.y tx ty * PLAYER_SPEED)
          ∧ (mapLookup q.players pid).map Player.y
            = some (p.y + (ty - p.y) / distance qsqrt p.x p.y tx ty * PLAYER_SPEED) := by
      intro q hq
      rw [hq, mapLookup_mapSet_self]
      exact ⟨rfl, rfl⟩
    have hmove : (mapLookup (movePlayerTowardsTarget qsqrt st pid tx ty).players pid).map
          Player.x = some (p.x + (tx - p.x) / distance qsqrt p.x p.y tx ty * PLAYER_SPEED)
        ∧ (mapLookup (movePlayerTowardsTarget qsqrt st pid tx ty).players pid).map
          Player.y = some (p.y + (ty - p.y) / distance qsqrt p.x p.y tx ty * PLAYER_SPEED) := by
      simp only [movePlayerTowardsTarget, hp]
      rw [if_pos hgt]
      rw [hminx, hmaxx, hminy, hmaxy]
      split
      · rw [updatePlayerQuadrant_players]
        simp only [setPlayer, mapLookup_mapSet_self]
        exact ⟨rfl, rfl⟩
      · simp only [setPlayer]
        rw [mapLookup_mapSet_self]
        exact ⟨rfl, rfl⟩
    refine ⟨hmove.1, hmove.2, ?_⟩
    intro hsq
    have hd0 : distance qsqrt p.x p.y tx ty ≠ 0 := by linarith
    have hdsq : distance qsqrt p.x p.y tx ty ^ 2 = (tx - p.x) ^ 2 + (ty - p.y) ^ 2 := by
      simpa [distance, distSq] using hsq.2
    simp only [distSq, PLAYER_SPEED]
    field_simp
    linear_combination (-225 : ℚ) * hdsq

/-- Square-root oracle correct at 10000 (for the C7 amended witness). -/
def c7Sqrt2 : ℚ → ℚ := fun s => if s = 10000 then 100 else 0

/-- Witness for the amended C7: the fixture cell, target 100 units to the
right, moves by exactly 15. -/
theorem C7_move_fixed_speed_witness :
    ((mapLookup (movePlayerTowardsTarget c7Sqrt2 c7St "M" 200 100).players "M").map Player.x
        = some (c7P.x + (200 - c7P.x) / (distance c7Sqrt2 c7P.x c7P.y 200 100) * PLAYER_SPEED))
    ∧ ((mapLookup (movePlayerTowardsTarget c7Sqrt2 c7St "M" 200 100).players "M").map Player.y
        = some (c7P.y + (100 - c7P.y) / (distance c7Sqrt2 c7P.x c7P.y 200 100) * PLAYER_SPEED))
    ∧ (SqrtOk c7Sqrt2 (distSq c7P.x c7P.y 200 100) →
        distSq c7P.x c7P.y
          (c7P.x + (200 - c7P.x) / (distance c7Sqrt2 c7P.x c7P.y 200 100) * PLAYER_SPEED)
          (c7P.y + (100 - c7P.y) / (distance c7Sqrt2 c7P.x c7P.y 200 100) * PLAYER_SPEED)
          = PLAYER_SPEED ^ 2) :=
  (C7_move_fixed_speed c7Sqrt2 c7St "M" c7P 200 100 (by simp [c7St, mapLookup])).2
    (distance c7Sqrt2 c7P.x c7P.y 200 100) rfl
    (by norm_num [distance, distSq, c7Sqrt2, c7P, basePlayer])
    (by norm_num [distance, distSq, c7Sqrt2, c7P, basePlayer, PLAYER_SPEED])
    (by norm_num [distance, distSq, c7Sqrt2, c7P, basePlayer, PLAYER_SPEED, WORLD_WIDTH])
    (by norm_num [distance, distSq, c7Sqrt2, c7P, basePlayer, PLAYER_SPEED])
    (by norm_num [distance, distSq, c7Sqrt2, c7P, basePlayer, PLAYER_SPEED, WORLD_HEIGHT])

/-- Scenario-D bot fixture: a 150-mass bot at the origin. -/
def c9Bot : Player := { basePlayer "bot" 0 0 18 150 with isBot := true }

/-- Scenario-D prey fixture: a 100-mass human player at (300, 0), i.e. at
distance 300 from the bot. -/
def c9Prey : Player := basePlayer "prey" 300 0 15 100

/-- Square-root oracle correct at 90000 (the squared Scenario-D distance). -/
def c9Sqrt : ℚ → ℚ := fun s => if s = 90000 then 300 else 0

/-- C9, Scenario D: a 150-mass bot is (re)classified as a hunter by
`updateBotBehavior`; the visible player at distance 300 lies within the
hunter vision range 600; and `findBestTarget` returns exactly that player's
position — its priority `100 − 300/6 + (0.8 − 2/3)·50 + 50 = 320/3 ≈ 106.7`
exceeds the minimum threshold 40 and, being at least 70, the food scan is
skipped entirely, for any list of nearby food. -/
theorem C9_hunter_targets_player
    (qsqrt : ℚ → ℚ) (foods : List Food)
    (hs : SqrtOk qsqrt (distSq 0 0 300 0)) :
    (updateBotBehavior c9Bot).behavior = Behavior.hunter
    ∧ distance qsqrt 0 0 300 0 ≤ 600
    ∧ findBestTarget qsqrt (updateBotBehavior c9Bot) [c9Prey] foods
        = some { x := 300, y := 0, priority := 320 / 3 } := by
  have h90000 : distSq 0 0 300 0 = 90000 := by norm_num [distSq]
  have h300 : qsqrt (distSq 0 0 300 0) = 300 :=
    sqrtOk_val qsqrt _ 300 hs (by norm_num) (by rw [h90000]; norm_num)
  have hbot : updateBotBehavior c9Bot
      = { c9Bot with behavior := Behavior.hunter,
                     aggression := min 1 (c9Bot.aggression + 1 / 20) } := by
    rw [updateBotBehavior]
    rw [if_pos (by norm_num [c9Bot, basePlayer])]
  refine ⟨by rw [hbot], ?_, ?_⟩
  · rw [distance, h300]
    norm_num
  · rw [findBestTarget]
    have hscan : scanPlayers qsqrt (updateBotBehavior c9Bot) [c9Prey] none 0
        = (some { x := 300, y := 0, priority := 320 / 3 }, 320 / 3) := by
      rw [scanPlayers, scanPlayers]
      rw [if_pos]
      · congr 2
        · rw [hbot]
          simp only [c9Bot, c9Prey, basePlayer]
          rw [distance]
          norm_num [distSq] at h300 ⊢
          rw [h300]
          norm_num
        · rw [hbot]
          simp only [c9Bot, c9Prey, basePlayer]
          rw [distance]
          norm_num [distSq] at h300 ⊢
          rw [h300]
          norm_num
      · constructor
        · rw [hbot]
          simp only [c9Bot, c9Prey, basePlayer]
          rw [distance]
          norm_num [distSq] at h300 ⊢
          rw [h300]
          norm_num
        · rw [hbot]
          simp only [c9Bot, c9Prey, basePlayer]
          rw [distance]
          norm_num [distSq] at h300 ⊢
          rw [h300]
          norm_num
    rw [hscan]
    norm_num

/-- Witness for C9 with the concrete square-root oracle and no nearby food. -/
theorem C9_hunter_targets_player_witness :
    (updateBotBehavior c9Bot).behavior = Behavior.hunter
    ∧ distance c9Sqrt 0 0 300 0 ≤ 600
    ∧ findBestTarget c9Sqrt (updateBotBehavior c9Bot) [c9Prey] []
        = some { x := 300, y := 0, priority := 320 / 3 } :=
  C9_hunter_targets_player c9Sqrt [] (by norm_num [SqrtOk, c9Sqrt, distSq])

/-- Entries without a parent link are skipped by the merge loop. -/
theorem mergeLoop_skip_none (qsqrt : ℚ → ℚ) (entries tail : List (String × Player))
    (st : GameState) (h : ∀ e ∈ entries, (e : String × Player).2.parentId = none) :
    mergeLoop qsqrt (entries ++ tail) st = mergeLoop qsqrt tail st := by
  induction entries generalizing st with
  | nil => rfl
  | cons e rest ih =>
    obtain ⟨k, p⟩ := e
    have hp : p.parentId = none := h _ (List.mem_cons_self _ _)
    rw [List.cons_append, mergeLoop, hp]
    exact ih st (fun e he => h e (List.mem_cons_of_mem _ he))

/-- The merge loop run on parent-free entries alone leaves the state as is. -/
theorem mergeLoop_none_fixed (qsqrt : ℚ → ℚ) (entries : List (String × Player))
    (st : GameState) (h : ∀ e ∈ entries, (e : String × Player).2.parentId = none) :
    mergeLoop qsqrt entries st = st := by
  have := mergeLoop_skip_none qsqrt entries [] st h
  simpa [mergeLoop] using this

/-- Sibling-merge fixture: parent `P` with two fragments `F1`, `F2` that are
10 apart from each other but 1000 away from `P`. -/
def c6P : Player := { basePlayer "P" 0 0 15 100 with splitParts := ["F1", "F2"] }

/-- First fragment of the sibling-merge fixture. -/
def c6F1 : Player := { basePlayer "F1" 1000 0 15 50 with parentId := some "P" }

/-- Second fragment of the sibling-merge fixture. -/
def c6F2 : Player := { basePlayer "F2" 1010 0 15 50 with parentId := some "P" }

/-- The three-cell world of the sibling-merge fixture. -/
def c6St : GameState :=
  { players := [("P", c6P), ("F1", c6F1), ("F2", c6F2)], food := [], quadrants := [] }

/-- Square-root oracle correct at the two fragment-to-parent squared
distances of the sibling-merge fixture. -/
def c6Sqrt : ℚ → ℚ :=
  fun s => if s = 1000000 then 1000 else if s = 1020100 then 1010 else 99999

/-- C6 counterexample: fragments `F1` and `F2` of the same parent are 10
apart — well below the merge distance `parent.radius × 2 = 30` — yet
`checkMerge` absorbs neither (it only ever measures the distance to the
parent, which is 1000 here), leaving the state unchanged; this refutes the
claim's sibling-proximity clause. -/
theorem C6_sibling_merge_counterexample :
    SqrtOk c6Sqrt (distSq c6F1.x c6F1.y c6P.x c6P.y)
    ∧ SqrtOk c6Sqrt (distSq c6F2.x c6F2.y c6P.x c6P.y)
    ∧ distSq c6F1.x c6F1.y c6F2.x c6F2.y < (c6P.radius * 2) ^ 2
    ∧ checkMerge c6Sqrt c6St = c6St := by
  refine ⟨?_, ?_, ?_, ?_⟩
  · norm_num [SqrtOk, c6Sqrt, distSq, c6F1, c6P, basePlayer]
  · norm_num [SqrtOk, c6Sqrt, distSq, c6F2, c6P, basePlayer]
  · norm_num [distSq, c6F1, c6F2, c6P, basePlayer]
  · have hlookP : mapLookup c6St.players "P" = some c6P := by simp [c6St, mapLookup]
    rw [checkMerge]
    show mergeLoop c6Sqrt [("P", c6P), ("F1", c6F1), ("F2", c6F2)] c6St = c6St
    norm_num [mergeLoop, hlookP, c6P, c6F1, c6F2, basePlayer, distance, distSq, c6Sqrt]

/-- C6 amended: `checkMerge` absorbs a fragment exactly when it is within
`parent.radius × 2` of its parent (sibling proximity plays no role): the
parent's resulting mass and score are the sums of the two pre-merge values,
its radius is recomputed from the summed mass, the fragment's identifier is
removed from the parent's fragment list, and the fragment is deleted from
the world.  Stated for a world whose other entries are not fragments, so
that this absorption is the only one of the pass. -/
theorem C6_merge_absorbs_fragment
    (qsqrt : ℚ → ℚ) (pre post : List (String × Player)) (fid pid : String)
    (frag parent : Player) (st : GameState)
    (hst : st.players = pre ++ (fid, frag) :: post)
    (hpre : ∀ e ∈ pre, (e : String × Player).2.parentId = none)
    (hpost : ∀ e ∈ post, (e : String × Player).2.parentId = none)
    (hfragparent : frag.parentId = some pid)
    (hparent : mapLookup st.players pid = some parent)
    (hpneq : pid ≠ fid)
    (hnd : (st.players.map Prod.fst).Nodup)
    (hclose : distance qsqrt frag.x frag.y parent.x parent.y < parent.radius * 2) :
    mapLookup (checkMerge qsqrt st).players fid = none
    ∧ mapLookup (checkMerge qsqrt st).players pid
        = some { parent with mass := parent.mass + frag.mass,
                             radius := massToRadius qsqrt (parent.mass + frag.mass),
                             score := parent.score + frag.score,
                             splitParts := parent.splitParts.filter (fun id => id ≠ fid) } := by
  have hmerge : checkMerge qsqrt st
      = (match frag.quadrant with
         | some qid => quadrantRemovePlayer
            { setPlayer st pid
                { parent with mass := parent.mass + frag.mass,
                              radius := massToRadius qsqrt (parent.mass + frag.mass),
                              score := parent.score + frag.score,
                              splitParts := parent.splitParts.filter (fun id => id ≠ fid) } with
              players := mapDelete (setPlayer st pid
                { parent with mass := parent.mass + frag.mass,
                              radius := massToRadius qsqrt (parent.mass + frag.mass),
                              score := parent.score + frag.score,
                              splitParts := parent.splitParts.filter (fun id => id ≠ fid) }).players fid }
            qid fid
         | none =>
            { setPlayer st pid
                { parent with mass := parent.mass + frag.mass,
                              radius := massToRadius qsqrt (parent.mass + frag.mass),
                              score := parent.score + frag.score,
                              splitParts := parent.splitParts.filter (fun id => id ≠ fid) } with
              players := mapDelete (setPlayer st pid
                { parent with mass := parent.mass + frag.mass,
                              radius := massToRadius qsqrt (parent.mass + frag.mass),
                              score := parent.score + frag.score,
                              splitParts := parent.splitParts.filter (fun id => id ≠ fid) }).players fid }) := by
    rw [checkMerge, hst]
    rw [mergeLoop_skip_none qsqrt pre _ st hpre]
    rw [mergeLoop, hfragparent]
    dsimp only
    rw [hparent]
    dsimp only
    rw [if_pos hclose]
    cases hq : frag.quadrant with
    | none =>
      dsimp only
      exact mergeLoop_none_fixed qsqrt post _ hpost
    | some qid =>
      dsimp only
      exact mergeLoop_none_fixed qsqrt post _ hpost
  have hplayers : (checkMerge qsqrt st).players
      = mapDelete (mapSet st.players pid
          { parent with mass := parent.mass + frag.mass,
                        radius := massToRadius qsqrt (parent.mass + frag.mass),
                        score := parent.score + frag.score,
                        splitParts := parent.splitParts.filter (fun id => id ≠ fid) }) fid := by
    rw [hmerge]
    cases frag.quadrant with
    | none => rfl
    | some qid =>
      rw [quadrantRemovePlayer_players]
      rfl
  constructor
  · rw [hplayers]
    apply mapLookup_mapDelete_self
    rw [mapSet_keys_of_some _ _ _ _ hparent]
    exact hnd
  · rw [hplayers]
    rw [mapLookup_mapDelete_ne _ _ _ hpneq]
    exact mapLookup_mapSet_self _ _ _

/-- Absorption fixture: parent `P` (mass 100, score 4, radius 15, fragment
list `["F"]`) and its fragment `F` (mass 50, score 7) only 10 away. -/
def c6wP : Player :=
  { basePlayer "P" 0 0 15 100 with splitParts := ["F"], score := 4 }

/-- The fragment of the absorption fixture. -/
def c6wF : Player :=
  { basePlayer "F" 10 0 8 50 with parentId := some "P", score := 7 }

/-- The two-cell world of the absorption fixture. -/
def c6wSt : GameState :=
  { players := [("P", c6wP), ("F", c6wF)], food := [], quadrants := [] }

/-- Square-root oracle correct at 100 (the squared fragment distance of the
absorption fixture). -/
def c6wSqrt : ℚ → ℚ := fun s => if s = 100 then 10 else 0

/-- Witness for the amended C6 at the absorption fixture: `F` is absorbed
into `P`, which ends with mass 150, score 11 and an empty fragment list. -/
theorem C6_merge_absorbs_fragment_witness :
    mapLookup (checkMerge c6wSqrt c6wSt).players "F" = none
    ∧ mapLookup (checkMerge c6wSqrt c6wSt).players "P"
        = some { c6wP with mass := c6wP.mass + c6wF.mass,
                           radius := massToRadius c6wSqrt (c6wP.mass + c6wF.mass),
                           score := c6wP.score + c6wF.score,
                           splitParts := c6wP.splitParts.filter (fun id => id ≠ "F") } :=
  C6_merge_absorbs_fragment c6wSqrt [("P", c6wP)] [] "F" "P" c6wF c6wP c6wSt
    rfl
    (by intro e he; simp at he; rw [he]; rfl)
    (by intro e he; simp at he)
    rfl
    (by simp [c6wSt, mapLookup])
    (by decide)
    (by decide)
    (by norm_num [distance, distSq, c6wSqrt, c6wF, c6wP, basePlayer])

/-- The disconnect handler's fragment-deletion fold, projected to the
players map. -/
theorem disconnectFold_players (pids : List String) (st : GameState) :
    (pids.foldl (fun s partId => { s with players := mapDelete s.players partId }) st).players
      = pids.foldl (fun ps partId => mapDelete ps partId) st.players := by
  induction pids generalizing st with
  | nil => rfl
  | cons p rest ih =>
    simp only [List.foldl_cons]
    rw [ih]

/-- Deleting keys never resurrects an absent key. -/
theorem foldl_mapDelete_lookup_none {α : Type} (pids : List String)
    (m : List (String × α)) (k : String) (h : mapLookup m k = none) :
    mapLookup (pids.foldl (fun ps pid => mapDelete ps pid) m) k = none := by
  induction pids generalizing m with
  | nil => exact h
  | cons p rest ih =>
    simp only [List.foldl_cons]
    exact ih _ (mapDelete_lookup_none _ _ _ h)

/-- Key-list nodup is preserved by a fold of deletions. -/
theorem foldl_mapDelete_nodup {α : Type} (pids : List String)
    (m : List (String × α)) (hnd : (m.map Prod.fst).Nodup) :
    ((pids.foldl (fun ps pid => mapDelete ps pid) m).map Prod.fst).Nodup := by
  induction pids generalizing m with
  | nil => exact hnd
  | cons p rest ih =>
    simp only [List.foldl_cons]
    exact ih _ (mapDelete_nodup _ _ hnd)

/-- Every key of the deletion list is absent after the fold (on a
well-formed map). -/
theorem foldl_mapDelete_lookup_mem {α : Type} (pids : List String)
    (m : List (String × α)) (k : String) (hk : k ∈ pids)
    (hnd : (m.map Prod.fst).Nodup) :
    mapLookup (pids.foldl (fun ps pid => mapDelete ps pid) m) k = none := by
  induction pids generalizing m with
  | nil => simp at hk
  | cons p rest ih =>
    simp only [List.foldl_cons]
    by_cases hkp : k = p
    · subst hkp
      exact foldl_mapDelete_lookup_none rest _ k (mapLookup_mapDelete_self m k hnd)
    · rcases List.mem_cons.mp hk with h | h
      · exact absurd h hkp
      · exact ih _ h (mapDelete_nodup _ _ hnd)

/-- Reduction of `handleDisconnect` for a live, non-bot connection. -/
theorem handleDisconnect_eq (st : GameState) (sid : String) (player : Player)
    (hp : mapLookup st.players sid = some player) (hbot : player.isBot = false) :
    handleDisconnect st sid
      = (match player.quadrant with
         | some qid => quadrantRemovePlayer
            { player.splitParts.foldl
                (fun s partId => { s with players := mapDelete s.players partId }) st with
              players := mapDelete ((player.splitParts.foldl
                (fun s partId => { s with players := mapDelete s.players partId }) st).players) sid }
            qid sid
         | none =>
            { player.splitParts.foldl
                (fun s partId => { s with players := mapDelete s.players partId }) st with
              players := mapDelete ((player.splitParts.foldl
                (fun s partId => { s with players := mapDelete s.players partId }) st).players) sid }) := by
  simp only [handleDisconnect, hp, hbot, Bool.false_eq_true, if_false]

/-- The players map left by `handleDisconnect`: the fragment list's entries
and then the top-level entry deleted. -/
theorem handleDisconnect_players (st : GameState) (sid : String) (player : Player)
    (hp : mapLookup st.players sid = some player) (hbot : player.isBot = false) :
    (handleDisconnect st sid).players
      = mapDelete (player.splitParts.foldl (fun ps pid => mapDelete ps pid) st.players) sid := by
  rw [handleDisconnect_eq st sid player hp hbot]
  cases player.quadrant with
  | none =>
    show mapDelete _ sid = _
    rw [disconnectFold_players]
  | some qid =>
    rw [quadrantRemovePlayer_players]
    show mapDelete _ sid = _
    rw [disconnectFold_players]

/-- A quadrant entry read back right after `quadrantRemovePlayer` no longer
contains the removed id. -/
theorem quadrantRemovePlayer_not_mem (st : GameState) (qid k : String) (q : Quadrant)
    (h : mapLookup (quadrantRemovePlayer st qid k).quadrants qid = some q) :
    k ∉ q.players := by
  unfold quadrantRemovePlayer at h
  cases hl : mapLookup st.quadrants qid with
  | none =>
    rw [hl] at h
    dsimp at h
    rw [hl] at h
    cases h
  | some quadrant =>
    rw [hl] at h
    dsimp at h
    rw [mapLookup_mapSet_self] at h
    cases h
    intro hmem
    have := (List.mem_filter.mp hmem).2
    simp at this

/-- Disconnect fixture: top-level `P` with fragment `F`, both indexed in
quadrant `0_0`. -/
def c8P : Player :=
  { basePlayer "P" 10 10 20 100 with splitParts := ["F"], quadrant := some "0_0" }

/-- The fragment of the disconnect fixture. -/
def c8F : Player :=
  { basePlayer "F" 15 10 20 100 with parentId := some "P", quadrant := some "0_0" }

/-- The quadrant bucket of the disconnect fixture, holding both ids. -/
def c8Q : Quadrant :=
  { x := 0, y := 0, width := 500, height := 500, players := ["P", "F"], food := [] }

/-- The world of the disconnect fixture. -/
def c8St : GameState :=
  { players := [("P", c8P), ("F", c8F)], food := [],
    quadrants := [("0_0", c8Q)] }

/-- C8 counterexample: disconnecting `P` deletes the fragment `F` from the
world map, but `F`'s identifier is left behind in the spatial index (the
quadrant's player set still reads `["F"]`), contradicting the claim that
fragments are removed from both structures in the same step. -/
theorem C8_fragment_in_index_counterexample :
    mapLookup (handleDisconnect c8St "P").players "F" = none
    ∧ ((mapLookup (handleDisconnect c8St "P").quadrants "0_0").map Quadrant.players)
        = some ["F"] := by
  have hchar := handleDisconnect_players c8St "P" c8P (by simp [c8St, mapLookup]) rfl
  constructor
  · rw [hchar]
    rw [mapLookup_mapDelete_ne _ _ _ (by decide : ("F" : String) ≠ "P")]
    exact foldl_mapDelete_lookup_mem _ _ _ (by decide) (by decide)
  · rfl

/-- C8 amended: disconnect removes the connection's top-level cell and every
fragment in its list from the world map, and removes the top-level id from
its cached quadrant's player set; fragment identifiers may linger in the
spatial index, but `liveQuadrantIds` — the ids a collision pass can actually
act on, since `checkCollisions` skips every id whose map lookup fails —
never again contains the removed identifiers, so no neighbor or collision
query returns them. -/
theorem C8_disconnect_cleanup
    (st : GameState) (sid : String) (player : Player)
    (hp : mapLookup st.players sid = some player)
    (hbot : player.isBot = false)
    (hsid : sid ∉ player.splitParts)
    (hnd : (st.players.map Prod.fst).Nodup) :
    mapLookup (handleDisconnect st sid).players sid = none
    ∧ (∀ pid ∈ player.splitParts, mapLookup (handleDisconnect st sid).players pid = none)
    ∧ (∀ qid, sid ∉ liveQuadrantIds (handleDisconnect st sid) qid)
    ∧ (∀ qid pid, pid ∈ player.splitParts → pid ∉ liveQuadrantIds (handleDisconnect st sid) qid)
    ∧ (∀ qid q, player.quadrant = some qid →
        mapLookup (handleDisconnect st sid).quadrants qid = some q →
        sid ∉ q.players) := by
  have hchar := handleDisconnect_players st sid player hp hbot
  have hlooksid : mapLookup (handleDisconnect st sid).players sid = none := by
    rw [hchar]
    exact mapLookup_mapDelete_self _ _ (foldl_mapDelete_nodup _ _ hnd)
  have hlookfrag : ∀ pid ∈ player.splitParts,
      mapLookup (handleDisconnect st sid).players pid = none := by
    intro pid hpid
    have hne : pid ≠ sid := fun h => hsid (h ▸ hpid)
    rw [hchar]
    rw [mapLookup_mapDelete_ne _ _ _ hne]
    exact foldl_mapDelete_lookup_mem _ _ _ hpid hnd
  refine ⟨hlooksid, hlookfrag, ?_, ?_, ?_⟩
  · intro qid hmem
    have := (List.mem_filter.mp hmem).2
    rw [hlooksid] at this
    simp at this
  · intro qid pid hpid hmem
    have := (List.mem_filter.mp hmem).2
    rw [hlookfrag pid hpid] at this
    simp at this
  · intro qid q hq hlook
    rw [handleDisconnect_eq st sid player hp hbot, hq] at hlook
    exact quadrantRemovePlayer_not_mem _ qid sid q hlook

/-- Witness for the amended C8 at the disconnect fixture. -/
theorem C8_disconnect_cleanup_witness :
    mapLookup (handleDisconnect c8St "P").players "P" = none
    ∧ (∀ pid ∈ c8P.splitParts, mapLookup (handleDisconnect c8St "P").players pid = none)
    ∧ (∀ qid, "P" ∉ liveQuadrantIds (handleDisconnect c8St "P") qid)
    ∧ (∀ qid pid, pid ∈ c8P.splitParts → pid ∉ liveQuadrantIds (handleDisconnect c8St "P") qid)
    ∧ (∀ qid q, c8P.quadrant = some qid →
        mapLookup (handleDisconnect c8St "P").quadrants qid = some q →
        "P" ∉ q.players) :=
  C8_disconnect_cleanup c8St "P" c8P (by simp [c8St, mapLookup]) rfl
    (by decide) (by decide)

/-- Entries under other identifiers are untouched by the `join` handler. -/
theorem handleJoin_lookup_ne (st : GameState) (sid name color : String)
    (r1 r2 : ℚ) (k : String) (hk : k ≠ sid) :
    mapLookup (handleJoin st sid name r1 r2 color).players k = mapLookup st.players k := by
  simp only [handleJoin]
  rw [updatePlayerQuadrant_lookup_ne _ _ _ _ hk]
  dsimp only
  rw [mapLookup_mapSet_ne _ _ _ _ hk]
  split
  · exact mapLookup_mapDelete_ne _ _ _ hk
  · rfl

/-- C10: a second join on a connection that already owns a live top-level
cell deletes the old entry and replaces it under the same identifier with a
fresh cell (random position, base mass, zero score, empty fragment list);
every other map entry — in particular every fragment of the old cell — is
unchanged; and each fragment whose `parentId` equals the connection id
re-attaches to the replacement cell: it appears in
`getAllPlayerParts` of the new cell (formation movement), and the parent
lookup `checkMerge` performs for it now resolves to the replacement cell. -/
theorem C10_rejoin_replaces_cell (st : GameState) (sid name color : String)
    (r1 r2 : ℚ) :
    mapLookup (handleJoin st sid name r1 r2 color).players sid
      = some { id := sid, x := r1 * WORLD_WIDTH, y := r2 * WORLD_HEIGHT,
               radius := BASE_RADIUS, color := color,
               name := (if name = "" then "Anonymous" else name).take 15,
               mass := BASE_MASS, isBot := false, behavior := Behavior.neutral,
               aggression := 1 / 2, parentId := none, splitParts := [], score := 0,
               isControlled := true,
               quadrant := some (getQuadrantId (r1 * WORLD_WIDTH) (r2 * WORLD_HEIGHT)) }
    ∧ (∀ k, k ≠ sid →
        mapLookup (handleJoin st sid name r1 r2 color).players k = mapLookup st.players k)
    ∧ (∀ fid frag, fid ≠ sid →
        mapLookup st.players fid = some frag → frag.parentId = some sid →
        frag ∈ getAllPlayerParts (handleJoin st sid name r1 r2 color) sid
        ∧ (∀ pid, frag.parentId = some pid →
            mapLookup (handleJoin st sid name r1 r2 color).players pid
              = some { id := sid, x := r1 * WORLD_WIDTH, y := r2 * WORLD_HEIGHT,
                       radius := BASE_RADIUS, color := color,
                       name := (if name = "" then "Anonymous" else name).take 15,
                       mass := BASE_MASS, isBot := false, behavior := Behavior.neutral,
                       aggression := 1 / 2, parentId := none, splitParts := [], score := 0,
                       isControlled := true,
                       quadrant := some (getQuadrantId (r1 * WORLD_WIDTH)
                         (r2 * WORLD_HEIGHT)) })) := by
  have hmain := handleJoin_lookup_self st sid name color r1 r2
  refine ⟨hmain, handleJoin_lookup_ne st sid name color r1 r2, ?_⟩
  intro fid frag hfid hlook hparent
  have hlk : mapLookup (handleJoin st sid name r1 r2 color).players fid = some frag := by
    rw [handleJoin_lookup_ne st sid name color r1 r2 fid hfid]
    exact hlook
  have hmem : (fid, frag) ∈ (handleJoin st sid name r1 r2 color).players :=
    mapLookup_mem _ _ _ hlk
  constructor
  · simp only [getAllPlayerParts, hmain, List.filterMap_nil]
    refine List.mem_cons_of_mem _ ?_
    refine List.mem_append_right _ ?_
    exact List.mem_map.mpr ⟨(fid, frag), List.mem_filter.mpr ⟨hmem, by simp [hparent]⟩, rfl⟩
  · intro pid hpid
    have : pid = sid := by
      rw [hparent] at hpid
      exact (Option.some.inj hpid).symm
    rw [this]
    exact hmain

/-- Re-join fixture: old top-level `P` with fragment list `["F"]` and its
live fragment `F`. -/
def c10Old : Player := { basePlayer "P" 50 50 20 300 with splitParts := ["F"] }

/-- The fragment of the re-join fixture. -/
def c10Frag : Player := { basePlayer "F" 60 50 15 150 with parentId := some "P" }

/-- The world of the re-join fixture. -/
def c10St : GameState :=
  { players := [("P", c10Old), ("F", c10Frag)], food := [], quadrants := [] }

/-- Witness for C10 at the re-join fixture. -/
theorem C10_rejoin_replaces_cell_witness :
    mapLookup (handleJoin c10St "P" "alice" (1 / 10) (1 / 10) "#FF6B6B").players "P"
      = some { id := "P", x := (1 / 10) * WORLD_WIDTH, y := (1 / 10) * WORLD_HEIGHT,
               radius := BASE_RADIUS, color := "#FF6B6B",
               name := (if "alice" = "" then "Anonymous" else "alice").take 15,
               mass := BASE_MASS, isBot := false, behavior := Behavior.neutral,
               aggression := 1 / 2, parentId := none, splitParts := [], score := 0,
               isControlled := true,
               quadrant := some (getQuadrantId ((1 / 10) * WORLD_WIDTH)
                 ((1 / 10) * WORLD_HEIGHT)) }
    ∧ (∀ k, k ≠ "P" →
        mapLookup (handleJoin c10St "P" "alice" (1 / 10) (1 / 10) "#FF6B6B").players k
          = mapLookup c10St.players k)
    ∧ (∀ fid frag, fid ≠ "P" →
        mapLookup c10St.players fid = some frag → frag.parentId = some "P" →
        frag ∈ getAllPlayerParts (handleJoin c10St "P" "alice" (1 / 10) (1 / 10) "#FF6B6B") "P"
        ∧ (∀ pid, frag.parentId = some pid →
            mapLookup (handleJoin c10St "P" "alice" (1 / 10) (1 / 10) "#FF6B6B").players pid
              = some { id := "P", x := (1 / 10) * WORLD_WIDTH, y := (1 / 10) * WORLD_HEIGHT,
                       radius := BASE_RADIUS, color := "#FF6B6B",
                       name := (if "alice" = "" then "Anonymous" else "alice").take 15,
                       mass := BASE_MASS, isBot := false, behavior := Behavior.neutral,
                       aggression := 1 / 2, parentId := none, splitParts := [], score := 0,
                       isControlled := true,
                       quadrant := some (getQuadrantId ((1 / 10) * WORLD_WIDTH)
                         ((1 / 10) * WORLD_HEIGHT)) })) :=
  C10_rejoin_replaces_cell c10St "P" "alice" "#FF6B6B" (1 / 10) (1 / 10)

/-! Food-count bookkeeping lemmas for the collision pass. -/

/-- Re-indexing a food item does not change the food keys. -/
theorem updateFoodQuadrant_food_keys (st : GameState) (fid : String) :
    (updateFoodQuadrant st fid).food.map Prod.fst = st.food.map Prod.fst := by
  unfold updateFoodQuadrant
  cases h : mapLookup st.food fid with
  | none => rfl
  | some f =>
    rw [quadrantAddFood_food]
    exact mapSet_keys_of_some _ _ _ _ h

/-- Re-indexing a food item does not change the food count. -/
theorem updateFoodQuadrant_food_length (st : GameState) (fid : String) :
    (updateFoodQuadrant st fid).food.length = st.food.length := by
  have := congrArg List.length (updateFoodQuadrant_food_keys st fid)
  simpa using this

/-- Spawning a fresh food item appends its key. -/
theorem spawnFood_food_keys (fs : FoodSpec) (st : GameState)
    (h : mapLookup st.food fs.fid = none) :
    (spawnFood fs st).food.map Prod.fst = st.food.map Prod.fst ++ [fs.fid] := by
  unfold spawnFood
  rw [updateFoodQuadrant_food_keys]
  exact mapSet_keys_of_none _ _ _ h

/-- Spawning a fresh food item grows the food count by one. -/
theorem spawnFood_food_length (fs : FoodSpec) (st : GameState)
    (h : mapLookup st.food fs.fid = none) :
    (spawnFood fs st).food.length = st.food.length + 1 := by
  have := congrArg List.length (spawnFood_food_keys fs st h)
  simpa using this

/-- The per-player food loop pairs every deletion with one fresh spawn: with
spawn identifiers fresh for the current food map and pairwise distinct, a
successful run preserves the food count exactly, and every food key
afterwards is an original key or the key of a used spawn. -/
theorem playerFoodLoop_food_spec (qsqrt : ℚ → ℚ) (qid : String) :
    ∀ (fuel : ℕ) (player : Player) (pending : List String) (st : GameState)
      (spawns : List FoodSpec) (p1 : Player) (st1 : GameState) (spawns1 : List FoodSpec),
      playerFoodLoop qsqrt qid player pending st spawns fuel = some (p1, st1, spawns1) →
      (∀ fs ∈ spawns, fs.fid ∉ st.food.map Prod.fst) →
      (spawns.map FoodSpec.fid).Nodup →
      st1.food.length = st.food.length
      ∧ ∃ used, spawns = used ++ spawns1
          ∧ ∀ k ∈ st1.food.map Prod.fst,
              k ∈ st.food.map Prod.fst ∨ k ∈ used.map FoodSpec.fid := by
  intro fuel
  induction fuel with
  | zero =>
    intro player pending st spawns p1 st1 spawns1 hrun hfresh hnd
    cases pending with
    | nil =>
      rw [playerFoodLoop] at hrun
      cases hrun
      exact ⟨rfl, [], by simp⟩
    | cons foodId rest =>
      rw [playerFoodLoop] at hrun
      cases hrun
  | succ n ih =>
    intro player pending st spawns p1 st1 spawns1 hrun hfresh hnd
    cases pending with
    | nil =>
      rw [playerFoodLoop] at hrun
      cases hrun
      exact ⟨rfl, [], by simp⟩
    | cons foodId rest =>
      rw [playerFoodLoop] at hrun
      cases hfood : mapLookup st.food foodId with
      | none =>
        rw [hfood] at hrun
        dsimp only at hrun
        exact ih player rest st spawns p1 st1 spawns1 hrun hfresh hnd
      | some foodItem =>
        rw [hfood] at hrun
        dsimp only at hrun
        by_cases hdist : distance qsqrt player.x player.y foodItem.x foodItem.y < player.radius
        · rw [if_pos hdist] at hrun
          cases spawns with
          | nil => cases hrun
          | cons fs spawnsRest =>
            have hfsfresh : fs.fid ∉ st.food.map Prod.fst :=
              hfresh fs (List.mem_cons_self _ _)
            have hndtail : (spawnsRest.map FoodSpec.fid).Nodup :=
              (List.nodup_cons.mp (by simpa using hnd)).2
            have hfsnotin : fs.fid ∉ spawnsRest.map FoodSpec.fid :=
              (List.nodup_cons.mp (by simpa using hnd)).1
            set stDel : GameState := { st with food := mapDelete st.food foodId } with hstDel
            set st2 : GameState := quadrantRemoveFood stDel qid foodId with hst2
            have hst2food : st2.food = mapDelete st.food foodId := by
              rw [hst2, quadrantRemoveFood_food]
            have hfresh2 : mapLookup st2.food fs.fid = none := by
              rw [mapLookup_none_iff, hst2food]
              exact fun hmem => hfsfresh (mapDelete_keys_subset _ _ _ hmem)
            set st3 : GameState := spawnFood fs st2 with hst3
            have hlen3 : st3.food.length = st.food.length := by
              rw [hst3, spawnFood_food_length fs st2 hfresh2]
              have : st2.food.length + 1 = st.food.length := by
                rw [hst2food]
                exact mapDelete_length _ _ _ hfood
              omega
            have hkeys3 : ∀ k ∈ st3.food.map Prod.fst,
                k ∈ st.food.map Prod.fst ∨ k = fs.fid := by
              intro k hk
              rw [hst3, spawnFood_food_keys fs st2 hfresh2] at hk
              rcases List.mem_append.mp hk with hk | hk
              · rw [hst2food] at hk
                exact Or.inl (mapDelete_keys_subset _ _ _ hk)
              · simp at hk
                exact Or.inr hk
            have hfresh3 : ∀ fs2 ∈ spawnsRest, fs2.fid ∉ st3.food.map Prod.fst := by
              intro fs2 hfs2 hmem
              rcases hkeys3 _ hmem with hin | heq
              · exact hfresh fs2 (List.mem_cons_of_mem _ hfs2) hin
              · exact hfsnotin (heq ▸ List.mem_map_of_mem FoodSpec.fid hfs2)
            have hrec := ih _ _ st3 spawnsRest p1 st1 spawns1 hrun hfresh3 hndtail
            obtain ⟨hlenr, used, hused, hkeysr⟩ := hrec
            refine ⟨hlenr.trans hlen3, fs :: used, by rw [hused]; rfl, ?_⟩
            intro k hk
            rcases hkeysr k hk with hk3 | hku
            · rcases hkeys3 k hk3 with h | h
              · exact Or.inl h
              · exact Or.inr (by simp [h])
            · exact Or.inr (by simp [List.mem_cons_of_mem, hku])
        · rw [if_neg hdist] at hrun
          exact ih player rest st spawns p1 st1 spawns1 hrun hfresh hnd

/-- Eating a player never touches the food map. -/
theorem handlePlayerEaten_food (qsqrt : ℚ → ℚ) (rx ry : ℚ) (st : GameState)
    (a b : String) : (handlePlayerEaten qsqrt rx ry st a b).food = st.food := by
  unfold handlePlayerEaten
  cases h1 : mapLookup st.players a with
  | none => rfl
  | some eaten =>
    cases h2 : mapLookup st.players b with
    | none => rfl
    | some eater =>
      dsimp only
      rw [updatePlayerQuadrant_food]
      rfl

/-- A player-player collision check never touches the food map. -/
theorem checkPlayerCollision_food (qsqrt : ℚ → ℚ) (st : GameState)
    (a b : String) (eats : List EatSpec) (st1 : GameState) (eats1 : List EatSpec)
    (h : checkPlayerCollision qsqrt st a b eats = some (st1, eats1)) :
    st1.food = st.food := by
  unfold checkPlayerCollision at h
  cases h1 : mapLookup st.players a with
  | none =>
    rw [h1] at h
    dsimp only at h
    cases h
    rfl
  | some player =>
    rw [h1] at h
    cases h2 : mapLookup st.players b with
    | none =>
      rw [h2] at h
      dsimp only at h
      cases h
      rfl
    | some otherPlayer =>
      rw [h2] at h
      dsimp only at h
      by_cases hsame : samePlayerPair player otherPlayer
      · rw [if_pos hsame] at h
        cases h
        rfl
      · rw [if_neg hsame] at h
        by_cases hover : distance qsqrt player.x player.y otherPlayer.x otherPlayer.y
            < player.radius + otherPlayer.radius
        · rw [if_pos hover] at h
          by_cases he1 : player.mass > otherPlayer.mass * (23 / 20)
          · rw [if_pos he1] at h
            cases eats with
            | nil => cases h
            | cons e rest =>
              dsimp only at h
              cases h
              exact handlePlayerEaten_food qsqrt e.rx e.ry st b a
          · rw [if_neg he1] at h
            by_cases he2 : otherPlayer.mass > player.mass * (23 / 20)
            · rw [if_pos he2] at h
              cases eats with
              | nil => cases h
              | cons e rest =>
                dsimp only at h
                cases h
                exact handlePlayerEaten_food qsqrt e.rx e.ry st a b
            · rw [if_neg he2] at h
              cases h
              rfl
        · rw [if_neg hover] at h
          cases h
          rfl

/-- The pair loop of the collision pass never touches the food map. -/
theorem playerPairLoop_food (qsqrt : ℚ → ℚ) (playerId : String) :
    ∀ (others : List String) (st : GameState) (processed : List String)
      (eats : List EatSpec) (st1 : GameState) (processed1 : List String)
      (eats1 : List EatSpec),
      playerPairLoop qsqrt st playerId others processed eats
        = some (st1, processed1, eats1) →
      st1.food = st.food := by
  intro others
  induction others with
  | nil =>
    intro st processed eats st1 processed1 eats1 h
    rw [playerPairLoop] at h
    cases h
    rfl
  | cons oid rest ih =>
    intro st processed eats st1 processed1 eats1 h
    rw [playerPairLoop] at h
    by_cases heq : playerId = oid
    · rw [if_pos heq] at h
      exact ih st processed eats st1 processed1 eats1 h
    · rw [if_neg heq] at h
      by_cases hkey : pairKey playerId oid ∈ processed
      · rw [if_pos hkey] at h
        exact ih st processed eats st1 processed1 eats1 h
      · rw [if_neg hkey] at h
        dsimp only at h
        cases hlook : mapLookup st.players oid with
        | none =>
          rw [hlook] at h
          dsimp only at h
          exact ih st _ eats st1 processed1 eats1 h
        | some other =>
          rw [hlook] at h
          dsimp only at h
          cases hcol : checkPlayerCollision qsqrt st playerId oid eats with
          | none =>
            rw [hcol] at h
            cases h
          | some res =>
            rw [hcol] at h
            dsimp only at h
            have h2 := ih res.1 _ res.2 st1 processed1 eats1 h
            rw [h2]
            exact checkPlayerCollision_food qsqrt st playerId oid eats res.1 res.2
              (by rw [hcol])

/-- The per-quadrant player loop preserves the food count under fresh,
pairwise-distinct spawn identifiers, and only adds used-spawn keys. -/
theorem quadrantPlayersLoop_food_spec (qsqrt : ℚ → ℚ) (qid : String)
    (playerIds : List String) :
    ∀ (pids : List String) (st : GameState) (spawns : List FoodSpec)
      (processed : List String) (eats : List EatSpec)
      (st1 : GameState) (spawns1 : List FoodSpec) (processed1 : List String)
      (eats1 : List EatSpec),
      quadrantPlayersLoop qsqrt qid playerIds pids st spawns processed eats
        = some (st1, spawns1, processed1, eats1) →
      (∀ fs ∈ spawns, fs.fid ∉ st.food.map Prod.fst) →
      (spawns.map FoodSpec.fid).Nodup →
      st1.food.length = st.food.length
      ∧ ∃ used, spawns = used ++ spawns1
          ∧ ∀ k ∈ st1.food.map Prod.fst,
              k ∈ st.food.map Prod.fst ∨ k ∈ used.map FoodSpec.fid := by
  intro pids
  induction pids with
  | nil =>
    intro st spawns processed eats st1 spawns1 processed1 eats1 h hfresh hnd
    rw [quadrantPlayersLoop] at h
    cases h
    exact ⟨rfl, [], by simp⟩
  | cons pid rest ih =>
    intro st spawns processed eats st1 spawns1 processed1 eats1 h hfresh hnd
    rw [quadrantPlayersLoop] at h
    cases hlook : mapLookup st.players pid with
    | none =>
      rw [hlook] at h
      dsimp only at h
      exact ih st spawns processed eats st1 spawns1 processed1 eats1 h hfresh hnd
    | some player =>
      rw [hlook] at h
      dsimp only at h
      cases hfl : playerFoodLoop qsqrt qid player (quadrantFoodSet st qid) st spawns
          ((quadrantFoodSet st qid).length + spawns.length) with
      | none =>
        rw [hfl] at h
        cases h
      | some res =>
        rw [hfl] at h
        dsimp only at h
        obtain ⟨hlenA, usedA, husedA, hkeysA⟩ :=
          playerFoodLoop_food_spec qsqrt qid _ player _ st spawns res.1 res.2.1 res.2.2
            (by rw [hfl]) hfresh hnd
        cases hpl : playerPairLoop qsqrt (setPlayer res.2.1 pid res.1) pid playerIds
            processed eats with
        | none =>
          rw [hpl] at h
          cases h
        | some res2 =>
          rw [hpl] at h
          dsimp only at h
          have hplfood : res2.1.food = res.2.1.food := by
            have := playerPairLoop_food qsqrt pid playerIds _ processed eats
              res2.1 res2.2.1 res2.2.2 (by rw [hpl])
            rw [this]
            rfl
          have hndA : (usedA.map FoodSpec.fid ++ res.2.2.map FoodSpec.fid).Nodup := by
            have : spawns.map FoodSpec.fid
                = usedA.map FoodSpec.fid ++ res.2.2.map FoodSpec.fid := by
              rw [husedA, List.map_append]
            rw [← this]
            exact hnd
          have hfreshB : ∀ fs ∈ res.2.2, fs.fid ∉ res2.1.food.map Prod.fst := by
            intro fs hfs hmem
            rw [hplfood] at hmem
            rcases hkeysA fs.fid hmem with hin | hus
            · exact hfresh fs (by rw [husedA]; exact List.mem_append_right _ hfs) hin
            · have hdisj := (List.nodup_append.mp hndA).2.2
              exact hdisj hus (List.mem_map_of_mem FoodSpec.fid hfs)
          have hndB : (res.2.2.map FoodSpec.fid).Nodup :=
            (List.nodup_append.mp hndA).2.1
          obtain ⟨hlenB, usedB, husedB, hkeysB⟩ :=
            ih res2.1 res.2.2 res2.2.1 res2.2.2 st1 spawns1 processed1 eats1 h hfreshB hndB
          refine ⟨?_, usedA ++ usedB, ?_, ?_⟩
          · rw [hlenB, hplfood]
            show res.2.1.food.length = st.food.length
            exact hlenA
          · rw [husedA, husedB, List.append_assoc]
          · intro k hk
            rcases hkeysB k hk with hkB | hkB
            · rw [hplfood] at hkB
              rcases hkeysA k hkB with h1 | h1
              · exact Or.inl h1
              · exact Or.inr (by rw [List.map_append]; exact List.mem_append_left _ h1)
            · exact Or.inr (by rw [List.map_append]; exact List.mem_append_right _ hkB)

/-- The quadrant loop preserves the food count under fresh, pairwise
distinct spawn identifiers. -/
theorem quadrantsLoop_food_spec (qsqrt : ℚ → ℚ) :
    ∀ (qids : List String) (st : GameState) (spawns : List FoodSpec)
      (processed : List String) (eats : List EatSpec)
      (st1 : GameState) (spawns1 : List FoodSpec) (processed1 : List String)
      (eats1 : List EatSpec),
      quadrantsLoop qsqrt qids st spawns processed eats
        = some (st1, spawns1, processed1, eats1) →
      (∀ fs ∈ spawns, fs.fid ∉ st.food.map Prod.fst) →
      (spawns.map FoodSpec.fid).Nodup →
      st1.food.length = st.food.length := by
  intro qids
  induction qids with
  | nil =>
    intro st spawns processed eats st1 spawns1 processed1 eats1 h hfresh hnd
    rw [quadrantsLoop] at h
    cases h
    rfl
  | cons qid rest ih =>
    intro st spawns processed eats st1 spawns1 processed1 eats1 h hfresh hnd
    rw [quadrantsLoop] at h
    cases hlook : mapLookup st.quadrants qid with
    | none =>
      rw [hlook] at h
      dsimp only at h
      exact ih st spawns processed eats st1 spawns1 processed1 eats1 h hfresh hnd
    | some quadrant =>
      rw [hlook] at h
      dsimp only at h
      cases hql : quadrantPlayersLoop qsqrt qid quadrant.players quadrant.players
          st spawns processed eats with
      | none =>
        rw [hql] at h
        cases h
      | some res =>
        rw [hql] at h
        dsimp only at h
        obtain ⟨hlenA, usedA, husedA, hkeysA⟩ :=
          quadrantPlayersLoop_food_spec qsqrt qid quadrant.players quadrant.players
            st spawns processed eats res.1 res.2.1 res.2.2.1 res.2.2.2
            (by rw [hql]) hfresh hnd
        have hndsplit : (usedA.map FoodSpec.fid ++ res.2.1.map FoodSpec.fid).Nodup := by
          have : spawns.map FoodSpec.fid
              = usedA.map FoodSpec.fid ++ res.2.1.map FoodSpec.fid := by
            rw [husedA, List.map_append]
          rw [← this]
          exact hnd
        have hfreshB : ∀ fs ∈ res.2.1, fs.fid ∉ res.1.food.map Prod.fst := by
          intro fs hfs hmem
          rcases hkeysA fs.fid hmem with hin | hus
          · exact hfresh fs (by rw [husedA]; exact List.mem_append_right _ hfs) hin
          · exact (List.nodup_append.mp hndsplit).2.2 hus (List.mem_map_of_mem FoodSpec.fid hfs)
        have hndB : (res.2.1.map FoodSpec.fid).Nodup :=
          (List.nodup_append.mp hndsplit).2.1
        have hlenB := ih res.1 res.2.1 res.2.2.1 res.2.2.2 st1 spawns1 processed1 eats1
          h hfreshB hndB
        rw [hlenB, hlenA]

/-- The merge loop never touches the food map. -/
theorem mergeLoop_food (qsqrt : ℚ → ℚ) :
    ∀ (entries : List (String × Player)) (st : GameState),
      (mergeLoop qsqrt entries st).food = st.food := by
  intro entries
  induction entries with
  | nil => intro st; rfl
  | cons e rest ih =>
    intro st
    obtain ⟨playerId, player⟩ := e
    rw [mergeLoop]
    cases player.parentId with
    | none => exact ih st
    | some parentId =>
      dsimp only
      cases mapLookup st.players parentId with
      | none => exact ih st
      | some parent =>
        dsimp only
        split
        · rw [ih]
          cases player.quadrant with
          | none => rfl
          | some qid =>
            dsimp only
            rw [quadrantRemovePlayer_food]
            rfl
        · exact ih st

/-- The `checkMerge` pass never touches the food map. -/
theorem checkMerge_food (qsqrt : ℚ → ℚ) (st : GameState) :
    (checkMerge qsqrt st).food = st.food :=
  mergeLoop_food qsqrt st.players st

/-- C4: a collision pass pairs every food deletion with exactly one spawn of
a fresh replacement, so — whenever the randomly generated spawn identifiers
are fresh and pairwise distinct — the number of live food items after
`checkCollisions` equals the number before; in particular a food population
of `FOOD_COUNT` is preserved across a full tick (`checkCollisions` followed
by `checkMerge`, which never touches food). -/
theorem C4_food_count_invariant
    (qsqrt : ℚ → ℚ) (st : GameState) (spawns : List FoodSpec) (eats : List EatSpec)
    (st1 : GameState) (spawns1 : List FoodSpec) (eats1 : List EatSpec)
    (hrun : checkCollisions qsqrt st spawns eats = some (st1, spawns1, eats1))
    (hfresh : ∀ fs ∈ spawns, fs.fid ∉ st.food.map Prod.fst)
    (hnd : (spawns.map FoodSpec.fid).Nodup) :
    st1.food.length = st.food.length
    ∧ (st.food.length = FOOD_COUNT → ((checkMerge qsqrt st1).food).length = FOOD_COUNT)
    ∧ (∀ st2 : GameState, (checkMerge qsqrt st2).food = st2.food) := by
  unfold checkCollisions at hrun
  cases hq : quadrantsLoop qsqrt (st.quadrants.map (fun e => e.1)) st spawns [] eats with
  | none =>
    rw [hq] at hrun
    cases hrun
  | some res =>
    rw [hq] at hrun
    dsimp only at hrun
    cases hrun
    have hlen := quadrantsLoop_food_spec qsqrt (st.quadrants.map (fun e => e.1))
      st spawns [] eats res.1 res.2.1 res.2.2.1 res.2.2.2 (by rw [hq]) hfresh hnd
    refine ⟨hlen, ?_, fun st2 => checkMerge_food qsqrt st2⟩
    intro hcount
    rw [checkMerge_food, hlen, hcount]

/-- Square-root oracle correct at 4 (the squared player-food distance of
the food fixture); elsewhere it returns a large value so no other overlap
fires. -/
def c4Sqrt : ℚ → ℚ := fun s => if s = 4 then 2 else 9999

/-- Food-fixture player: a cell at (10, 10) with radius 20, indexed in
quadrant `0_0`. -/
def c4A : Player := { basePlayer "A" 10 10 20 100 with quadrant := some "0_0" }

/-- Food-fixture food item at (12, 10), 2 units from the player. -/
def c4F1 : Food :=
  { id := "f1", x := 12, y := 10, radius := 5, color := "#FF6B6B", quadrant := "0_0" }

/-- The quadrant bucket of the food fixture. -/
def c4Q : Quadrant :=
  { x := 0, y := 0, width := 500, height := 500, players := ["A"], food := ["f1"] }

/-- The world of the food fixture: one player, one food item, one bucket. -/
def c4St : GameState :=
  { players := [("A", c4A)], food := [("f1", c4F1)], quadrants := [("0_0", c4Q)] }

/-- The replacement food drawn by the spawn oracle, landing at (600, 600). -/
def c4Spawn : FoodSpec := { fid := "f2", fx := 600, fy := 600, fr := 5, fc := "#FF6B6B" }

/-- The fixture player after eating `f1`: mass 110, score 10, radius
recomputed. -/
def c4A2 : Player := { c4A with mass := 110, radius := massToRadius c4Sqrt 110, score := 10 }

/-- The replacement food item as stored after the fixture pass. -/
def c4F2 : Food :=
  { id := "f2", x := 600, y := 600, radius := 5, color := "#FF6B6B", quadrant := "1_1" }

/-- The quadrant bucket of the food fixture after the pass. -/
def c4Q2 : Quadrant := { c4Q with food := [] }

/-- The state after the fixture collision pass (see `c4A2`, `c4F2`, `c4Q2`). -/
def c4Result : GameState :=
  { players := [("A", c4A2)], food := [("f2", c4F2)], quadrants := [("0_0", c4Q2)] }

/-- Witness for C4 at the food fixture: the pass consumes `f1`, spawns `f2`,
and the food count stays 1. -/
theorem C4_food_count_invariant_witness :
    checkCollisions c4Sqrt c4St [c4Spawn] [] = some (c4Result, [], [])
    ∧ c4Result.food.length = c4St.food.length
    ∧ (c4St.food.length = FOOD_COUNT →
        ((checkMerge c4Sqrt c4Result).food).length = FOOD_COUNT)
    ∧ (∀ st2 : GameState, (checkMerge c4Sqrt st2).food = st2.food) := by
  have hqid : getQuadrantId 600 600 = "1_1" := by
    rw [getQuadrantId]
    have hf : (⌊(600 : ℚ) / QUADRANT_SIZE⌋ : ℤ) = 1 := by norm_num [QUADRANT_SIZE]
    rw [hf]
    rfl
  have hne : ¬ (("0_0" : String) = "1_1") := by decide
  have heval : checkCollisions c4Sqrt c4St [c4Spawn] [] = some (c4Result, [], []) := by
    norm_num [checkCollisions, quadrantsLoop, quadrantPlayersLoop, playerFoodLoop,
      playerPairLoop, quadrantFoodSet, spawnFood, updateFoodQuadrant, quadrantAddFood,
      quadrantRemoveFood, setPlayer, mapLookup, mapSet, mapDelete, setDelete, setInsert,
      distance, distSq, c4Sqrt, massToRadius, mathRound, hqid, hne, pairKey,
      c4St, c4A, c4F1, c4Q, c4Spawn, c4Result, c4A2, c4F2, c4Q2, basePlayer]
  have hmain := C4_food_count_invariant c4Sqrt c4St [c4Spawn] [] c4Result [] []
    heval (by decide) (by decide)
  exact ⟨heval, hmain.1, hmain.2.1, hmain.2.2⟩

end Agar
